import Mathlib

/-!
Verification of the storage core of tinydb (paged file backend, write-ahead
log, pager, table B-tree) against its natural-language specification.

The Go source is shallowly embedded: pages are lists of byte values
(natural numbers kept below 256 where byte discipline matters), machine
integers are naturals reduced modulo 2^16 / 2^32 / 2^64 exactly where the
Go code uses uint16 / uint32 / uint64, and fallible operations return
Except / Option.  In-place mutation of Go structs is turned into explicit
state passing; the final states coincide because every mutated object is
re-installed into the owning cache before the operation returns.
-/

namespace TinyDb

/-! ## Byte-buffer primitives

`store buf off src` models Go `copy(buf[off:], src)`: it copies `src` into
`buf` starting at `off`, truncated at the end of `buf`, and never changes
the length of `buf`.  `byteAt` is an indexed read defaulting to 0, and
`extract buf off len` models the slice `buf[off : off+len]`. -/

def store : List Nat → Nat → List Nat → List Nat
  | [], _, _ => []
  | bs, _, [] => bs
  | _ :: bs, 0, s :: ss => s :: store bs 0 ss
  | b :: bs, n + 1, src => b :: store bs n src

def byteAt (bs : List Nat) (i : Nat) : Nat := bs.getD i 0

def extract (bs : List Nat) (off len : Nat) : List Nat := (bs.drop off).take len

theorem store_length (bs : List Nat) : ∀ (off : Nat) (src : List Nat),
    (store bs off src).length = bs.length := by
  induction bs with
  | nil => intro off src; simp [store]
  | cons b bs ih =>
    intro off src
    cases off with
    | zero => cases src with
      | nil => rfl
      | cons s ss => simp [store, ih]
    | succ n => cases src with
      | nil => rfl
      | cons s ss => simp [store, ih]

theorem byteAt_nil (i : Nat) : byteAt [] i = 0 := by
  cases i <;> rfl

theorem byteAt_cons_zero (b : Nat) (bs : List Nat) : byteAt (b :: bs) 0 = b := rfl

theorem byteAt_cons_succ (b : Nat) (bs : List Nat) (i : Nat) :
    byteAt (b :: bs) (i + 1) = byteAt bs i := rfl

theorem byteAt_store_lt (bs : List Nat) : ∀ (off j : Nat) (src : List Nat),
    j < off → byteAt (store bs off src) j = byteAt bs j := by
  induction bs with
  | nil => intro off j src _; simp [store]
  | cons b bs ih =>
    intro off j src hj
    cases off with
    | zero => omega
    | succ n =>
      cases src with
      | nil => rfl
      | cons s ss =>
        cases j with
        | zero => rfl
        | succ j => simpa [store, byteAt_cons_succ] using ih n j (s :: ss) (by omega)

theorem byteAt_store_ge (bs : List Nat) : ∀ (off j : Nat) (src : List Nat),
    off + src.length ≤ j → byteAt (store bs off src) j = byteAt bs j := by
  induction bs with
  | nil => intro off j src _; simp [store]
  | cons b bs ih =>
    intro off j src hj
    cases off with
    | zero =>
      cases src with
      | nil => rfl
      | cons s ss =>
        cases j with
        | zero => simp at hj
        | succ j =>
          simpa [store, byteAt_cons_succ] using ih 0 j ss (by simp at hj; omega)
    | succ n =>
      cases src with
      | nil => rfl
      | cons s ss =>
        cases j with
        | zero => omega
        | succ j => simpa [store, byteAt_cons_succ] using ih n j (s :: ss) (by omega)

theorem byteAt_store_mid (bs : List Nat) : ∀ (off j : Nat) (src : List Nat),
    off ≤ j → j < off + src.length → j < bs.length →
    byteAt (store bs off src) j = byteAt src (j - off) := by
  induction bs with
  | nil => intro off j src _ _ h; simp at h
  | cons b bs ih =>
    intro off j src h1 h2 h3
    cases off with
    | zero =>
      cases src with
      | nil => simp at h2
      | cons s ss =>
        cases j with
        | zero => rfl
        | succ j =>
          simpa [store, byteAt_cons_succ] using
            ih 0 j ss (by omega) (by simp at h2 ⊢; omega) (by simp at h3; omega)
    | succ n =>
      cases src with
      | nil => simp at h2; omega
      | cons s ss =>
        cases j with
        | zero => omega
        | succ j =>
          have := ih n j (s :: ss) (by omega) (by omega) (by simp at h3; omega)
          simpa [store, byteAt_cons_succ, Nat.succ_sub_succ] using this

theorem extract_store_before (bs : List Nat) : ∀ (o1 o2 n2 : Nat) (src : List Nat),
    o2 + n2 ≤ o1 → extract (store bs o1 src) o2 n2 = extract bs o2 n2 := by
  induction bs with
  | nil => intro o1 o2 n2 src _; simp [store]
  | cons b bs ih =>
    intro o1 o2 n2 src h
    cases o1 with
    | zero =>
      have h2 : o2 = 0 := by omega
      have h3 : n2 = 0 := by omega
      subst h2; subst h3
      cases src <;> simp [extract]
    | succ n =>
      cases src with
      | nil => rfl
      | cons s ss =>
        cases o2 with
        | zero =>
          cases n2 with
          | zero => simp [extract]
          | succ m =>
            simp only [store, extract, List.drop_zero, List.take_succ_cons]
            have := ih n 0 m (s :: ss) (by omega)
            simpa [extract] using this
        | succ o2 =>
          simp only [store, extract, List.drop_succ_cons]
          exact ih n o2 n2 (s :: ss) (by omega)

theorem extract_store_after (bs : List Nat) : ∀ (o1 o2 n2 : Nat) (src : List Nat),
    o1 + src.length ≤ o2 → extract (store bs o1 src) o2 n2 = extract bs o2 n2 := by
  induction bs with
  | nil => intro o1 o2 n2 src _; simp [store]
  | cons b bs ih =>
    intro o1 o2 n2 src h
    cases o1 with
    | zero =>
      cases src with
      | nil => rfl
      | cons s ss =>
        cases o2 with
        | zero => simp at h
        | succ o2 =>
          simp only [store, extract, List.drop_succ_cons]
          exact ih 0 o2 n2 ss (by simp at h; omega)
    | succ n =>
      cases src with
      | nil => rfl
      | cons s ss =>
        cases o2 with
        | zero => omega
        | succ o2 =>
          simp only [store, extract, List.drop_succ_cons]
          exact ih n o2 n2 (s :: ss) (by omega)

theorem extract_store_exact (bs : List Nat) : ∀ (off : Nat) (src : List Nat),
    off + src.length ≤ bs.length →
    extract (store bs off src) off src.length = src := by
  induction bs with
  | nil =>
    intro off src h
    have hs : src = [] := by
      cases src with
      | nil => rfl
      | cons s ss => simp at h
    subst hs
    simp [store, extract]
  | cons b bs ih =>
    intro off src h
    cases off with
    | zero =>
      cases src with
      | nil => rfl
      | cons s ss =>
        simp only [store, extract, List.drop_zero, List.length_cons, List.take_succ_cons]
        have := ih 0 ss (by simp at h ⊢; omega)
        simpa [extract] using this
    | succ n =>
      cases src with
      | nil => rfl
      | cons s ss =>
        simp only [store, extract, List.drop_succ_cons]
        exact ih n (s :: ss) (by simp at h ⊢; omega)

theorem extract_length (bs : List Nat) (off len : Nat) (h : off + len ≤ bs.length) :
    (extract bs off len).length = len := by
  simp [extract]; omega

theorem drop_eq_extract (bs : List Nat) (off n : Nat) (h : off + n = bs.length) :
    bs.drop off = extract bs off n := by
  unfold extract
  rw [List.take_of_length_le]
  simp; omega

/-! ## Big-endian integer encoding (binary.BigEndian) -/

def be16 (v : Nat) : List Nat := [v / 256 % 256, v % 256]

def be32 (v : Nat) : List Nat :=
  [v / 16777216 % 256, v / 65536 % 256, v / 256 % 256, v % 256]

def be64 (v : Nat) : List Nat :=
  (be32 (v / 4294967296)) ++ (be32 v)

def writeU16 (bs : List Nat) (off v : Nat) : List Nat := store bs off (be16 v)

def writeU32 (bs : List Nat) (off v : Nat) : List Nat := store bs off (be32 v)

def readU16 (bs : List Nat) (off : Nat) : Nat :=
  256 * byteAt bs off + byteAt bs (off + 1)

def readU32 (bs : List Nat) (off : Nat) : Nat :=
  16777216 * byteAt bs off + 65536 * byteAt bs (off + 1) +
    256 * byteAt bs (off + 2) + byteAt bs (off + 3)

theorem be16_length (v : Nat) : (be16 v).length = 2 := rfl

theorem be32_length (v : Nat) : (be32 v).length = 4 := rfl

theorem be64_length (v : Nat) : (be64 v).length = 8 := rfl

theorem readU16_store_be16 (bs : List Nat) (off v : Nat)
    (hb : off + 2 ≤ bs.length) (hv : v < 65536) :
    readU16 (store bs off (be16 v)) off = v := by
  unfold readU16
  rw [byteAt_store_mid bs off off (be16 v) (by omega) (by simp [be16_length]) (by omega),
      byteAt_store_mid bs off (off + 1) (be16 v) (by omega) (by simp [be16_length]) (by omega)]
  simp only [Nat.sub_self, Nat.add_sub_cancel_left]
  show 256 * byteAt (be16 v) 0 + byteAt (be16 v) 1 = v
  simp only [be16, byteAt_cons_zero, byteAt_cons_succ]
  show 256 * (v / 256 % 256) + v % 256 = v
  omega

theorem readU32_store_be32 (bs : List Nat) (off v : Nat)
    (hb : off + 4 ≤ bs.length) (hv : v < 4294967296) :
    readU32 (store bs off (be32 v)) off = v := by
  unfold readU32
  rw [byteAt_store_mid bs off off (be32 v) (by omega) (by simp [be32_length]) (by omega),
      byteAt_store_mid bs off (off + 1) (be32 v) (by omega) (by simp [be32_length]) (by omega),
      byteAt_store_mid bs off (off + 2) (be32 v) (by omega) (by simp [be32_length]) (by omega),
      byteAt_store_mid bs off (off + 3) (be32 v) (by omega) (by simp [be32_length]) (by omega)]
  simp only [Nat.sub_self, Nat.add_sub_cancel_left]
  show 16777216 * byteAt (be32 v) 0 + 65536 * byteAt (be32 v) 1 +
      256 * byteAt (be32 v) 2 + byteAt (be32 v) 3 = v
  simp only [be32, byteAt_cons_zero, byteAt_cons_succ]
  show 16777216 * (v / 16777216 % 256) + 65536 * (v / 65536 % 256) +
      256 * (v / 256 % 256) + v % 256 = v
  omega

theorem byteAt_lt_256 (bs : List Nat) : ∀ (i : Nat),
    (∀ b ∈ bs, b < 256) → byteAt bs i < 256 := by
  induction bs with
  | nil => intro i _; rw [byteAt_nil]; omega
  | cons b bs ih =>
    intro i h
    cases i with
    | zero => exact h b (by simp)
    | succ i =>
      rw [byteAt_cons_succ]
      exact ih i (fun x hx => h x (by simp [hx]))

theorem readU32_lt (bs : List Nat) (off : Nat)
    (hb : ∀ b ∈ bs, b < 256) : readU32 bs off < 4294967296 := by
  unfold readU32
  have h0 := byteAt_lt_256 bs off hb
  have h1 := byteAt_lt_256 bs (off + 1) hb
  have h2 := byteAt_lt_256 bs (off + 2) hb
  have h3 := byteAt_lt_256 bs (off + 3) hb
  omega

/-! ## Association-list maps

Go `map[int][]byte` / `map[int]*MemPage` are modelled as association
lists with at most one binding per key (`setAssoc` replaces in place). -/

def lookupAssoc {α : Type} : List (Nat × α) → Nat → Option α
  | [], _ => none
  | (k, v) :: rest, n => if k = n then some v else lookupAssoc rest n

def setAssoc {α : Type} : List (Nat × α) → Nat → α → List (Nat × α)
  | [], k, v => [(k, v)]
  | (k1, v1) :: rest, k, v =>
    if k1 = k then (k, v) :: rest else (k1, v1) :: setAssoc rest k v

theorem lookupAssoc_setAssoc_self {α : Type} (l : List (Nat × α)) (k : Nat) (v : α) :
    lookupAssoc (setAssoc l k v) k = some v := by
  induction l with
  | nil => simp [setAssoc, lookupAssoc]
  | cons kv rest ih =>
    by_cases h : kv.1 = k
    · simp [setAssoc, h, lookupAssoc]
    · simp [setAssoc, h, lookupAssoc, ih]

theorem lookupAssoc_setAssoc_ne {α : Type} (l : List (Nat × α)) (k k2 : Nat) (v : α)
    (h : k ≠ k2) : lookupAssoc (setAssoc l k v) k2 = lookupAssoc l k2 := by
  induction l with
  | nil => simp [setAssoc, lookupAssoc, h]
  | cons kv rest ih =>
    by_cases h1 : kv.1 = k
    · simp [setAssoc, h1, lookupAssoc, h]
    · simp [setAssoc, h1, lookupAssoc, ih]

/-! ## CRC-64 (hash/crc64 with the ISO table), used for the WAL header
checksum.  `crcByteFn n` is the table entry `tab[n]`; `crc64ISO` is
`crc64.New(crc64.MakeTable(crc64.ISO))` followed by `Write` and `Sum64`. -/

def crc64Poly : Nat := 0xD800000000000000

def crcStep (c : Nat) : Nat :=
  if c % 2 = 1 then Nat.xor (c / 2) crc64Poly else c / 2

def crcByteFn (n : Nat) : Nat := crcStep^[8] n

def crc64Update (c : Nat) (bytes : List Nat) : Nat :=
  let c0 := Nat.xor c 0xFFFFFFFFFFFFFFFF
  let cf := bytes.foldl (fun acc b => Nat.xor (crcByteFn (Nat.xor (acc % 256) b)) (acc / 256)) c0
  Nat.xor cf 0xFFFFFFFFFFFFFFFF

def crc64ISO (bytes : List Nat) : Nat := crc64Update 0 bytes

/-! ## Pages and the paged file backend (`DbFile`)

The main database file is modelled as the pair of the last header value
written at offset 0 (`diskHeader`) and a map from page number to the byte
block stored at `pageOffset(n)`; for page 1 the block starts at file
offset 100, so only `data[100:]` is stored, exactly as `DbFile.Write`
writes it.  `syncCount` counts `file.Sync()` calls.  OS-level I/O errors
are not modelled; the only failure is the gap-in-pages check.  A failed
`Write` returns only the error (the partially updated file state that the
Go code leaves behind is not observable through any claim). -/

structure Page where
  pageNumber : Nat
  data : List Nat
  deriving DecidableEq

structure FileHeader where
  pageSize : Nat
  fileChangeCounter : Nat
  sizeInPages : Nat
  deriving DecidableEq

structure DbFile where
  header : FileHeader
  pageSize : Nat
  totalPages : Nat
  diskHeader : Option FileHeader
  pages : List (Nat × List Nat)
  syncCount : Nat
  deriving DecidableEq

def gapErrMsg : String := "cannot grow the db file with a gap in pages"

def dbRead (f : DbFile) (page : Nat) : Option (List Nat) :=
  match lookupAssoc f.pages page with
  | some bs => some (if page = 1 then List.replicate 100 0 ++ bs else bs)
  | none => none

def dbWriteLoop : DbFile → List Page → Except String DbFile
  | f, [] => Except.ok f
  | f, p :: rest =>
    if p.pageNumber > f.totalPages + 1 then Except.error gapErrMsg
    else
      let tp := if p.pageNumber > f.totalPages then p.pageNumber else f.totalPages
      let stored := if p.pageNumber = 1 then p.data.drop 100 else p.data
      dbWriteLoop { f with totalPages := tp, pages := setAssoc f.pages p.pageNumber stored } rest

def bumpHeader (f : DbFile) : FileHeader :=
  { pageSize := f.pageSize % 65536,
    fileChangeCounter := (f.header.fileChangeCounter + 1) % 4294967296,
    sizeInPages := f.totalPages % 4294967296 }

def updateFileHeader (f : DbFile) : DbFile :=
  { f with header := bumpHeader f, diskHeader := some (bumpHeader f) }

def dbWrite (f : DbFile) (ps : List Page) : Except String DbFile :=
  match dbWriteLoop f ps with
  | Except.error e => Except.error e
  | Except.ok f1 => Except.ok { updateFileHeader f1 with syncCount := f1.syncCount + 1 }

/-! ## Write-ahead log (`WAL`)

The WAL side file is a byte list; `fileOff` is the OS file offset of the
open handle (writes go through `writeAt`, i.e. write-at-offset, since the
Go code only seeks explicitly in `writeHeader`), while `pos` mirrors the
`w.pos` uint32 field.  `rand.Uint32()` is modelled by consuming a stream
of pregenerated values `rand` (two per header write). -/

def writeAt (f : List Nat) (off : Nat) (bs : List Nat) : List Nat :=
  f.take off ++ List.replicate (off - f.length) 0 ++ bs ++ f.drop (off + bs.length)

structure WAL where
  dbFile : DbFile
  checkpointNumber : Nat
  salt1 : Nat
  salt2 : Nat
  pos : Nat
  totalPages : Nat
  pageCache : List (Nat × List Nat)
  walFile : List Nat
  fileOff : Nat
  rand : List Nat
  deriving DecidableEq

def WALHeaderLen : Nat := 32

def WALFrameHeaderLen : Nat := 24

def WALMagicNumber : Nat := 0x377f0682

def WALFileFormat : Nat := 3007000

def walHeaderBytes (pageSize cn s1 s2 : Nat) : List Nat :=
  let first24 := be32 WALMagicNumber ++ be32 WALFileFormat ++ be32 pageSize ++
    be32 cn ++ be32 s1 ++ be32 s2
  first24 ++ be64 (crc64ISO first24)

def walRead (w : WAL) (page : Nat) : Option (List Nat) :=
  match lookupAssoc w.pageCache page with
  | some d => some d
  | none => dbRead w.dbFile page

def walWriteHeader (w : WAL) : WAL :=
  let cn := (w.checkpointNumber + 1) % 4294967296
  let s1 := w.rand.getD 0 0
  let s2 := w.rand.getD 1 0
  let hdr := walHeaderBytes w.dbFile.pageSize cn s1 s2
  { w with checkpointNumber := cn, salt1 := s1, salt2 := s2,
           rand := w.rand.drop 2,
           walFile := writeAt w.walFile 0 hdr,
           fileOff := WALHeaderLen, pos := WALHeaderLen }

/-- The frame produced by `makeWalFrame`.  The Go code allocates a
24-byte header slice with capacity `24 + PageSize`, writes the zero
checksum past the slice length, then passes the slice to
`bytes.NewBuffer` (which makes it the buffer CONTENT) and writes it
again, so the produced frame is `header ++ header ++ data`. -/
def makeWalFrame (w : WAL) (pageNo : Nat) (data : List Nat) (isCommit : Bool) : List Nat :=
  let hdr := be32 pageNo ++ be32 (if isCommit then 1 else 0) ++
    be32 w.salt1 ++ be32 w.salt2 ++ List.replicate 8 0
  hdr ++ hdr ++ data

def walWriteLog (w : WAL) (pageNo : Nat) (data : List Nat) (isCommit : Bool) : WAL :=
  let frame := makeWalFrame w pageNo data isCommit
  { w with walFile := writeAt w.walFile w.fileOff frame,
           fileOff := w.fileOff + frame.length,
           pos := (w.pos + frame.length) % 4294967296 }

def walWriteFrames : WAL → List Page → WAL
  | w, [] => w
  | w, p :: rest =>
    let w1 := { w with pageCache := setAssoc w.pageCache p.pageNumber p.data,
                       totalPages := if p.pageNumber > w.totalPages then p.pageNumber
                                     else w.totalPages }
    walWriteFrames (walWriteLog w1 p.pageNumber p.data rest.isEmpty) rest

def walWrite (w : WAL) (pages : List Page) : WAL :=
  let w1 := if w.pos = 0 then walWriteHeader w else w
  walWriteFrames w1 pages

/-- `WAL.Checkpoint`: gather the buffered pages (in buffer order; the Go
map iteration order is unspecified, so theorems about `Checkpoint` are
stated conditionally on its success), write them to the DbFile if there
are any, then reset the append position to 0.  The buffer is not
cleared. -/
def walCheckpoint (w : WAL) : Except String WAL :=
  let pagesToWrite := w.pageCache.map (fun kv => Page.mk kv.1 kv.2)
  if pagesToWrite.isEmpty then Except.ok { w with pos := 0 }
  else
    match dbWrite w.dbFile pagesToWrite with
    | Except.error e => Except.error e
    | Except.ok db1 => Except.ok { w with dbFile := db1, pos := 0 }

/-! ## Record and interior-node codecs -/

/-- Modelled from the spec: `storage.Record` and its codec are not under
`src/`.  Per the spec (§3, §6) a record is a variable-length payload with
a 32-bit `RowID`, serialized by an external codec to opaque bytes of
known length, with `RowID` extractable.  We realize this contract as:
4-byte big-endian RowID, then a one-byte payload length, then the
payload. -/
structure Record where
  rowID : Nat
  payload : List Nat
  deriving DecidableEq

def Record.toBytes (r : Record) : List Nat :=
  be32 r.rowID ++ [r.payload.length % 256] ++ r.payload

/-- Modelled from the spec: prefix parser of the record codec
(`storage.ReadRecord` reads one record from the front of a byte
stream). -/
def parseRecord (bs : List Nat) : Option Record :=
  if 5 ≤ bs.length then
    let n := byteAt bs 4
    if 5 + n ≤ bs.length then some ⟨readU32 bs 0, extract bs 5 n⟩ else none
  else none

/-- Modelled from the spec: `storage.InteriorNode` is a fixed 8-byte
cell, `LeftChild` (4-byte page number) followed by `Key` (4-byte RowID),
big-endian. -/
structure InteriorNode where
  leftChild : Nat
  key : Nat
  deriving DecidableEq

def InteriorNode.toBytes (n : InteriorNode) : List Nat :=
  be32 n.leftChild ++ be32 n.key

def InteriorNodeSize : Nat := 8

def parseInteriorNode (bs : List Nat) : Option InteriorNode :=
  if 8 ≤ bs.length then some ⟨readU32 bs 0, readU32 bs 4⟩ else none

/-! ## In-memory B-tree pages (`MemPage`, mem_page.go)

`PageType` is a byte, as in Go. -/

def PageTypeInternal : Nat := 0x05

def PageTypeLeaf : Nat := 0x0D

def PageTypeInternalIndex : Nat := 0x02

def PageTypeLeafIndex : Nat := 0x0A

def InteriorHeaderLen : Nat := 12

def LeafHeaderLen : Nat := 8

structure PageHeader where
  type : Nat
  freeBlock : Nat
  numCells : Nat
  cellsOffset : Nat
  fragmentedFreeBytes : Nat
  rightPage : Nat
  deriving DecidableEq

def NewPageHeader (t pageSize : Nat) : PageHeader :=
  { type := t, cellsOffset := pageSize % 65536, freeBlock := 0, numCells := 0,
    fragmentedFreeBytes := 0, rightPage := 0 }

structure MemPage where
  header : PageHeader
  pageNumber : Nat
  data : List Nat
  dirty : Bool
  deriving DecidableEq

def headerOffset (pageNumber : Nat) : Nat :=
  if pageNumber = 1 then 100 else 0

def cellPointersStart (pageType pageNumber : Nat) : Nat :=
  if pageType = PageTypeInternal ∨ pageType = PageTypeInternalIndex then
    headerOffset pageNumber + InteriorHeaderLen
  else
    headerOffset pageNumber + LeafHeaderLen

def MemPage.updateHeaderData (p : MemPage) : MemPage :=
  let ho := headerOffset p.pageNumber
  let d1 := store p.data ho [p.header.type % 256]
  let d2 := writeU16 d1 (ho + 1) (p.header.freeBlock % 65536)
  let d3 := writeU16 d2 (ho + 3) (p.header.numCells % 65536)
  let d4 := writeU16 d3 (ho + 5) (p.header.cellsOffset % 65536)
  let d5 := store d4 (ho + 7) [p.header.fragmentedFreeBytes % 256]
  let d6 :=
    if p.header.type = PageTypeInternal ∨ p.header.type = PageTypeInternalIndex then
      writeU32 d5 (ho + 8) (p.header.rightPage % 4294967296)
    else d5
  { p with data := d6 }

def MemPage.Number (p : MemPage) : Nat := p.pageNumber

def MemPage.SetHeader (p : MemPage) (h : PageHeader) : MemPage :=
  MemPage.updateHeaderData { p with dirty := true, header := h }

/-- Go `copy(dst, src)`: copies `min |dst| |src|` bytes into the front of
`dst`. -/
def copyGo (dst src : List Nat) : List Nat :=
  let n := min dst.length src.length
  src.take n ++ dst.drop n

def MemPage.CopyTo (p dst : MemPage) : MemPage :=
  { dst with dirty := true, header := p.header, data := copyGo dst.data p.data }

def MemPage.Fits (p : MemPage) (recordLen : Nat) : Bool :=
  let cellPointerOffset : Int :=
    (cellPointersStart p.header.type p.pageNumber : Int) + (p.header.numCells : Int) * 2
  let cellDataOffset : Int := (p.header.cellsOffset : Int) - (recordLen : Int)
  cellPointerOffset + 2 ≤ cellDataOffset

def MemPage.CellCount (p : MemPage) : Nat := p.header.numCells

def MemPage.cellDataOffset (p : MemPage) (cellIndex : Nat) : Nat :=
  readU16 p.data (cellPointersStart p.header.type p.pageNumber + 2 * cellIndex)

def MemPage.ReadRecord (p : MemPage) (cellIndex : Nat) : Option Record :=
  parseRecord (p.data.drop (p.cellDataOffset cellIndex))

def MemPage.ReadInteriorNode (p : MemPage) (cellIndex : Nat) : Option InteriorNode :=
  parseInteriorNode (p.data.drop (p.cellDataOffset cellIndex))

def MemPage.AddCell (p : MemPage) (data : List Nat) : MemPage :=
  let cellPointerOffset :=
    cellPointersStart p.header.type p.pageNumber + 2 * p.header.numCells
  let cellLength := data.length % 65536
  let cellOffset := (p.header.cellsOffset + 65536 - cellLength) % 65536
  let d1 := writeU16 p.data cellPointerOffset cellOffset
  let d2 := store d1 cellOffset data
  MemPage.updateHeaderData
    { p with dirty := true, data := d2,
             header := { p.header with cellsOffset := cellOffset,
                                       numCells := (p.header.numCells + 1) % 65536 } }

def FromBytes (pageNumber : Nat) (data : List Nat) : MemPage :=
  let off := headerOffset pageNumber
  let t := byteAt data off
  let header : PageHeader :=
    { type := t,
      freeBlock := readU16 data (off + 1),
      numCells := readU16 data (off + 3),
      cellsOffset := readU16 data (off + 5),
      fragmentedFreeBytes := byteAt data (off + 7),
      rightPage := if t = PageTypeInternal ∨ t = PageTypeInternalIndex then
                     readU32 data (off + 8)
                   else 0 }
  { header := header, pageNumber := pageNumber, data := data, dirty := false }

/-! ## Pager (pager.go)

The pager caches parsed `MemPage`s; its underlying `storage.File` is
modelled as a read-only page map `file` (the claims proved here never
reach the miss-and-parse path with a concrete file).  `Read` inserts
parsed pages into the cache, `Write` installs the given pages, and
`Allocate` creates a fresh dirty page. -/

structure Pager where
  pageCount : Nat
  pageSize : Nat
  pageCache : List (Nat × MemPage)
  file : List (Nat × List Nat)
  deriving DecidableEq

def pagerRead (p : Pager) (pageNumber : Nat) : Except String (MemPage × Pager) :=
  if pageNumber < 1 then Except.error "page out of bounds"
  else
    match lookupAssoc p.pageCache pageNumber with
    | some tablePage => Except.ok (tablePage, p)
    | none =>
      match lookupAssoc p.file pageNumber with
      | some data =>
        let page := FromBytes pageNumber data
        Except.ok (page, { p with pageCache := setAssoc p.pageCache pageNumber page })
      | none => Except.error "io"

def pagerWrite (p : Pager) (pages : List MemPage) : Pager :=
  { p with pageCache := pages.foldl (fun c pg => setAssoc c pg.Number pg) p.pageCache }

def pagerAllocate (p : Pager) (pageType : Nat) : MemPage × Pager :=
  let pc := p.pageCount + 1
  let newPage := MemPage.updateHeaderData
    { header := NewPageHeader pageType p.pageSize, pageNumber := pc,
      data := List.replicate p.pageSize 0, dirty := true }
  (newPage, { p with pageCount := pc, pageCache := setAssoc p.pageCache pc newPage })

/-! ## Table B-tree insert (btree.go) -/

/-- `maxRowID`: scan all records of a page with the record iterator; the
first failing `ReadRecord` aborts with its error. -/
def maxRowID (p : MemPage) : Except String Nat :=
  (List.range p.CellCount).foldlM
    (fun m i =>
      match p.ReadRecord i with
      | some record => Except.ok (if record.rowID > m then record.rowID else m)
      | none => Except.error "bad record")
    0

/-- `splitPage`: allocate left and right leaves, compute the max RowID of
`p`, copy `p` to the left page, reinitialize `p` as an interior page
whose right pointer is the right page, and add one interior cell
`{LeftChild := left, Key := maxRowID}`.  Returns `(parent, left, right)`
together with the pager. -/
def splitPage (pager : Pager) (p : MemPage) :
    Except String (MemPage × MemPage × MemPage × Pager) :=
  let (leftPage0, pg1) := pagerAllocate pager PageTypeLeaf
  let (rightPage, pg2) := pagerAllocate pg1 PageTypeLeaf
  match maxRowID p with
  | Except.error e => Except.error e
  | Except.ok maxR =>
    let leftPage := MemPage.CopyTo p leftPage0
    let newHeader := { NewPageHeader PageTypeInternal p.data.length with
                       rightPage := rightPage.Number }
    let parent0 := MemPage.SetHeader p newHeader
    let cell : InteriorNode :=
      { leftChild := leftPage.Number % 4294967296, key := maxR }
    let parent := parent0.AddCell cell.toBytes
    Except.ok (parent, leftPage, rightPage, pg2)

def btInsert (pager : Pager) (rootPage : Nat) (r : Record) : Except String Pager :=
  let recordBytes := r.toBytes
  match pagerRead pager rootPage with
  | Except.error e => Except.error e
  | Except.ok (root, pg1) =>
    if root.header.type = PageTypeLeaf then
      if ¬ root.Fits recordBytes.length then
        match splitPage pg1 root with
        | Except.error e => Except.error e
        | Except.ok (parent, left, right, pg2) =>
          Except.ok (pagerWrite pg2 [left, right.AddCell recordBytes, parent])
      else
        Except.ok (pagerWrite pg1 [root.AddCell recordBytes])
    else if root.header.type = PageTypeInternal then
      match pagerRead pg1 root.header.rightPage with
      | Except.error e => Except.error e
      | Except.ok (destPage, pg2) =>
        if ¬ destPage.Fits recordBytes.length then
          match maxRowID destPage with
          | Except.error e => Except.error e
          | Except.ok maxR =>
            let internalNode : InteriorNode :=
              { leftChild := destPage.Number % 4294967296, key := maxR }
            if ¬ root.Fits InteriorNodeSize then
              Except.error "not yet supporting adding another internal node"
            else
              let (destPage2, pg3) := pagerAllocate pg2 PageTypeLeaf
              let root2 := { root with header := { root.header with
                               rightPage := destPage2.Number } }
              Except.ok (pagerWrite pg3 [root2.AddCell internalNode.toBytes,
                destPage2.AddCell recordBytes])
        else
          Except.ok (pagerWrite pg2 [destPage.AddCell recordBytes])
    else
      Except.error "unsupported page type"

/-- The list of records reachable through the cells of a page, in cell
order. -/
def recordsOf (p : MemPage) : List (Option Record) :=
  (List.range p.CellCount).map p.ReadRecord

/-- The maximum RowID over the (successfully parsed) records of a page,
starting from 0 — the value `maxRowID` returns when every read
succeeds. -/
def maxRowIDVal (p : MemPage) : Nat :=
  (recordsOf p).foldl
    (fun m o => match o with
      | some record => if record.rowID > m then record.rowID else m
      | none => m)
    0

/-! ## Generic helpers for stating concrete instances -/

def getOk {α : Type} (d : α) : Except String α → α
  | Except.ok a => a
  | Except.error _ => d

deriving instance DecidableEq for Except

/-! ## DbFile lemmas and claims C7, C8, C9 -/

theorem dbWriteLoop_header : ∀ (ps : List Page) (f f1 : DbFile),
    dbWriteLoop f ps = Except.ok f1 →
    f1.header = f.header ∧ f1.syncCount = f.syncCount := by
  intro ps
  induction ps with
  | nil => intro f f1 h; cases h; exact ⟨rfl, rfl⟩
  | cons p rest ih =>
    intro f f1 h
    unfold dbWriteLoop at h
    by_cases hg : p.pageNumber > f.totalPages + 1
    · simp [hg] at h
    · simp only [hg, if_false] at h
      obtain ⟨h1, h2⟩ := ih _ _ h
      exact ⟨h1, h2⟩

theorem dbWriteLoop_append (l1 l2 : List Page) : ∀ (f : DbFile),
    dbWriteLoop f (l1 ++ l2) =
      (dbWriteLoop f l1).bind (fun f1 => dbWriteLoop f1 l2) := by
  induction l1 with
  | nil => intro f; rfl
  | cons p rest ih =>
    intro f
    show dbWriteLoop f (p :: (rest ++ l2)) = (dbWriteLoop f (p :: rest)).bind _
    by_cases hg : p.pageNumber > f.totalPages + 1
    · simp [dbWriteLoop, hg, Except.bind]
    · simp only [dbWriteLoop]
      rw [if_neg hg, if_neg hg]
      exact ih _

/-- C7: every successful `DbFile.Write` call increases
`FileChangeCounter` by exactly 1 (the counter is a uint32; the
hypothesis is its non-wrapping range).  `Write` is the only operation of
the embedding that produces a new `DbFile`; `Read` and the accessors are
pure. -/
theorem C7_change_counter (f f2 : DbFile) (ps : List Page)
    (hc : f.header.fileChangeCounter + 1 < 4294967296)
    (hok : dbWrite f ps = Except.ok f2) :
    f2.header.fileChangeCounter = f.header.fileChangeCounter + 1 := by
  unfold dbWrite at hok
  cases h : dbWriteLoop f ps with
  | error e => rw [h] at hok; cases hok
  | ok f1 =>
    rw [h] at hok
    cases hok
    have hh := (dbWriteLoop_header ps f f1 h).1
    show (bumpHeader f1).fileChangeCounter = _
    unfold bumpHeader
    rw [hh]
    exact Nat.mod_eq_of_lt hc

def c7f : DbFile :=
  { header := { pageSize := 8, fileChangeCounter := 7, sizeInPages := 1 },
    pageSize := 8, totalPages := 1, diskHeader := none,
    pages := [(1, List.replicate 8 0)], syncCount := 0 }

def c7res : DbFile := getOk c7f (dbWrite c7f [⟨2, List.replicate 8 1⟩])

theorem C7_change_counter_witness :
    c7f.header.fileChangeCounter + 1 < 4294967296 ∧
    c7res.header.fileChangeCounter = c7f.header.fileChangeCounter + 1 :=
  ⟨by decide,
   C7_change_counter c7f c7res [⟨2, List.replicate 8 1⟩] (by decide) (by decide)⟩

/-- C8: if a page of the batch has a page number greater than
`TotalPages + 1` as of the moment the write loop reaches it (`fmid` is
the state after the pages before it), `DbFile.Write` fails with the
gap-in-pages error. -/
theorem C8_gap_rejection (f fmid : DbFile) (pre : List Page) (pg : Page)
    (post : List Page)
    (hpre : dbWriteLoop f pre = Except.ok fmid)
    (hgap : pg.pageNumber > fmid.totalPages + 1) :
    dbWrite f (pre ++ pg :: post) = Except.error gapErrMsg := by
  unfold dbWrite
  rw [dbWriteLoop_append, hpre]
  simp [dbWriteLoop, Except.bind, hgap]

def c8f : DbFile :=
  { header := { pageSize := 8, fileChangeCounter := 0, sizeInPages := 1 },
    pageSize := 8, totalPages := 1, diskHeader := none,
    pages := [(1, List.replicate 8 0)], syncCount := 0 }

theorem C8_gap_rejection_witness :
    (3 : Nat) > c8f.totalPages + 1 ∧
    dbWrite c8f [⟨3, List.replicate 8 0⟩] = Except.error gapErrMsg :=
  ⟨by decide,
   C8_gap_rejection c8f c8f [] ⟨3, List.replicate 8 0⟩ [] rfl (by decide)⟩

/-- C9: a successful `DbFile.Write` with an empty page list changes no
page bytes and not `TotalPages`, but still bumps `FileChangeCounter`,
rewrites the header at offset 0 and syncs the file once. -/
theorem C9_empty_write (f : DbFile)
    (hc : f.header.fileChangeCounter + 1 < 4294967296) :
    dbWrite f [] = Except.ok { f with header := bumpHeader f,
                                      diskHeader := some (bumpHeader f),
                                      syncCount := f.syncCount + 1 } ∧
    (bumpHeader f).fileChangeCounter = f.header.fileChangeCounter + 1 :=
  ⟨rfl, Nat.mod_eq_of_lt hc⟩

theorem C9_empty_write_witness :
    c8f.header.fileChangeCounter + 1 < 4294967296 ∧
    dbWrite c8f [] = Except.ok { c8f with header := bumpHeader c8f,
                                          diskHeader := some (bumpHeader c8f),
                                          syncCount := c8f.syncCount + 1 } :=
  ⟨by decide, (C9_empty_write c8f (by decide)).1⟩

/-! ## WAL write/read lemmas and claim C4 -/

def lastWrite (ps : List Page) (P : Nat) (init : Option (List Nat)) : Option (List Nat) :=
  ps.foldl (fun acc pg => if pg.pageNumber = P then some pg.data else acc) init

theorem walWriteFrames_cache (ps : List Page) : ∀ (w : WAL) (P : Nat),
    lookupAssoc (walWriteFrames w ps).pageCache P =
      lastWrite ps P (lookupAssoc w.pageCache P) := by
  induction ps with
  | nil => intro w P; rfl
  | cons p rest ih =>
    intro w P
    show lookupAssoc (walWriteFrames (walWriteLog _ _ _ _) rest).pageCache P = _
    rw [ih]
    show lastWrite rest P (lookupAssoc (setAssoc w.pageCache p.pageNumber p.data) P) = _
    by_cases h : p.pageNumber = P
    · subst h
      rw [lookupAssoc_setAssoc_self]
      show _ = lastWrite rest p.pageNumber (if p.pageNumber = p.pageNumber then some p.data else _)
      simp [lastWrite]
    · rw [lookupAssoc_setAssoc_ne _ _ _ _ h]
      show _ = lastWrite rest P (if p.pageNumber = P then some p.data else _)
      simp [lastWrite, h]

theorem lastWrite_none_some (ps : List Page) (P : Nat) (D : List Nat) :
    ∀ (init : Option (List Nat)),
    lastWrite ps P none = some D → lastWrite ps P init = some D := by
  induction ps with
  | nil => intro init h; cases h
  | cons p rest ih =>
    intro init h
    by_cases hp : p.pageNumber = P
    · show lastWrite rest P (if p.pageNumber = P then some p.data else init) = some D
      rw [if_pos hp]
      have h2 : lastWrite rest P (if p.pageNumber = P then some p.data else none) = some D := h
      rw [if_pos hp] at h2
      exact h2
    · show lastWrite rest P (if p.pageNumber = P then some p.data else init) = some D
      rw [if_neg hp]
      have h2 : lastWrite rest P (if p.pageNumber = P then some p.data else none) = some D := h
      rw [if_neg hp] at h2
      exact ih init h2

/-- C4: after `WAL.Write(pages)` where the last entry of the batch for
page `P` carries data `D` (and nothing was written to `P` afterwards),
`WAL.Read(P)` returns `D`, regardless of the state of the underlying
DbFile: the read is served entirely from the in-memory buffer. -/
theorem C4_wal_read_through (w : WAL) (ps : List Page) (P : Nat) (D : List Nat)
    (hlast : lastWrite ps P none = some D) :
    walRead (walWrite w ps) P = some D := by
  unfold walWrite
  rw [walRead]
  rw [walWriteFrames_cache]
  rw [lastWrite_none_some ps P D _ hlast]

def c4w : WAL :=
  { dbFile := c8f, checkpointNumber := 0, salt1 := 0, salt2 := 0, pos := 32,
    totalPages := 1, pageCache := [], walFile := List.replicate 32 0,
    fileOff := 32, rand := [] }

theorem C4_wal_read_through_witness :
    lastWrite [⟨5, [9, 9, 9]⟩] 5 none = some [9, 9, 9] ∧
    walRead (walWrite c4w [⟨5, [9, 9, 9]⟩]) 5 = some [9, 9, 9] :=
  ⟨by decide, C4_wal_read_through c4w [⟨5, [9, 9, 9]⟩] 5 [9, 9, 9] (by decide)⟩

/-! ## Claim C2: the WAL frame layout -/

def c2w : WAL :=
  { dbFile := { header := { pageSize := 64, fileChangeCounter := 0, sizeInPages := 1 },
                pageSize := 64, totalPages := 1, diskHeader := none, pages := [],
                syncCount := 0 },
    checkpointNumber := 1, salt1 := 17, salt2 := 23, pos := 32, totalPages := 1,
    pageCache := [], walFile := List.replicate 32 0, fileOff := 32, rand := [] }

def c2hdr : List Nat := be32 2 ++ be32 1 ++ be32 17 ++ be32 23 ++ List.replicate 8 0

def c2body : List Nat := List.replicate 64 7

set_option maxRecDepth 4000 in
/-- C2 (code bug): the frame that `WAL.Write` appends for a page is NOT
`24-byte header ++ PageSize body`.  `makeWalFrame` passes the 24-byte
header slice to `bytes.NewBuffer` (making it the initial buffer content)
and then writes the same slice into the buffer again, so the emitted
frame is `header ++ header ++ body` — 48 + PageSize bytes — and the
64-bit zero checksum written past the slice length is overwritten by the
duplicate.  Here, with PageSize = 1024, the single (commit) frame of a
one-page batch has length 48 + PageSize, not the 24 + PageSize the
format documents (PageSize = 64 in this instance). -/
theorem C2_frame_double_header :
    makeWalFrame c2w 2 c2body true = c2hdr ++ c2hdr ++ c2body ∧
    (makeWalFrame c2w 2 c2body true).length = 48 + 64 ∧
    (walWrite c2w [⟨2, c2body⟩]).walFile = c2w.walFile ++ (c2hdr ++ c2hdr ++ c2body) ∧
    48 + 64 ≠ 24 + 64 := by
  refine ⟨by decide, by decide, by decide, by decide⟩

/-! ## Checkpoint frame-effect lemmas and claim C10 -/

theorem walHeaderBytes_length (pageSize cn s1 s2 : Nat) :
    (walHeaderBytes pageSize cn s1 s2).length = 32 := by
  simp [walHeaderBytes, be32, be64]

theorem writeAt_length_ge (f : List Nat) (off : Nat) (bs : List Nat) :
    f.length ≤ (writeAt f off bs).length := by
  unfold writeAt
  simp only [List.length_append, List.length_take, List.length_replicate,
    List.length_drop]
  rcases Nat.le_total off f.length with h | h
  · rw [Nat.min_eq_left h]; omega
  · rw [Nat.min_eq_right h]; omega

theorem extract_writeAt_before (f : List Nat) (off : Nat) (bs : List Nat) (n : Nat)
    (h1 : n ≤ off) (h2 : n ≤ f.length) :
    extract (writeAt f off bs) 0 n = extract f 0 n := by
  unfold writeAt extract
  simp only [List.drop_zero]
  rw [List.take_append_of_le_length
        (by simp only [List.length_append, List.length_take, List.length_replicate]; omega),
      List.take_append_of_le_length
        (by simp only [List.length_append, List.length_take, List.length_replicate]; omega),
      List.take_append_of_le_length
        (by simp only [List.length_take]; omega),
      List.take_take, Nat.min_eq_left h1]

theorem extract_writeAt_zero (f : List Nat) (hdr : List Nat) (h : hdr.length = 32) :
    extract (writeAt f 0 hdr) 0 32 = hdr := by
  unfold writeAt extract
  simp only [List.take_zero, List.drop_zero, Nat.zero_sub, List.replicate_zero,
    List.nil_append, Nat.zero_add]
  rw [List.take_append_of_le_length (by omega), List.take_of_length_le (by omega)]

theorem writeAt_zero_length (f : List Nat) (hdr : List Nat) (h : hdr.length = 32) :
    32 ≤ (writeAt f 0 hdr).length := by
  unfold writeAt
  simp only [List.take_zero, Nat.zero_sub, List.replicate_zero, List.nil_append,
    List.length_append]
  omega

theorem walWriteFrames_keep (ps : List Page) : ∀ (w : WAL),
    32 ≤ w.fileOff → 32 ≤ w.walFile.length →
    (walWriteFrames w ps).checkpointNumber = w.checkpointNumber ∧
    (walWriteFrames w ps).salt1 = w.salt1 ∧
    (walWriteFrames w ps).salt2 = w.salt2 ∧
    (walWriteFrames w ps).dbFile = w.dbFile ∧
    extract (walWriteFrames w ps).walFile 0 32 = extract w.walFile 0 32 := by
  induction ps with
  | nil => intro w _ _; exact ⟨rfl, rfl, rfl, rfl, rfl⟩
  | cons p rest ih =>
    intro w hoff hlen
    simp only [walWriteFrames]
    have hoff2 : 32 ≤ (walWriteLog { w with
        pageCache := setAssoc w.pageCache p.pageNumber p.data,
        totalPages := if p.pageNumber > w.totalPages then p.pageNumber
                      else w.totalPages } p.pageNumber p.data rest.isEmpty).fileOff := by
      show 32 ≤ w.fileOff + _
      omega
    have hlen2 : 32 ≤ (walWriteLog { w with
        pageCache := setAssoc w.pageCache p.pageNumber p.data,
        totalPages := if p.pageNumber > w.totalPages then p.pageNumber
                      else w.totalPages } p.pageNumber p.data rest.isEmpty).walFile.length := by
      show 32 ≤ (writeAt w.walFile w.fileOff _).length
      exact Nat.le_trans hlen (writeAt_length_ge _ _ _)
    obtain ⟨h1, h2, h3, h4, h5⟩ := ih _ hoff2 hlen2
    refine ⟨by rw [h1]; rfl, by rw [h2]; rfl, by rw [h3]; rfl, by rw [h4]; rfl, ?_⟩
    rw [h5]
    show extract (writeAt w.walFile w.fileOff _) 0 32 = _
    exact extract_writeAt_before _ _ _ _ hoff hlen

/-- C10: with an empty in-memory buffer, `Checkpoint` performs no
`DbFile.Write` at all — the WAL state is unchanged except that the
append position is reset to 0 — and the next `WAL.Write` therefore
begins a new generation: it writes a fresh 32-byte WAL header at offset
0 with the checkpoint number incremented (as a uint32) and both salts
regenerated from the random source. -/
theorem C10_empty_checkpoint (w : WAL) (ps : List Page)
    (hempty : w.pageCache = []) :
    walCheckpoint w = Except.ok { w with pos := 0 } ∧
    (walWrite { w with pos := 0 } ps).checkpointNumber =
      (w.checkpointNumber + 1) % 4294967296 ∧
    (walWrite { w with pos := 0 } ps).salt1 = w.rand.getD 0 0 ∧
    (walWrite { w with pos := 0 } ps).salt2 = w.rand.getD 1 0 ∧
    (walWrite { w with pos := 0 } ps).dbFile = w.dbFile ∧
    extract (walWrite { w with pos := 0 } ps).walFile 0 32 =
      walHeaderBytes w.dbFile.pageSize ((w.checkpointNumber + 1) % 4294967296)
        (w.rand.getD 0 0) (w.rand.getD 1 0) := by
  constructor
  · unfold walCheckpoint
    rw [hempty]
    rfl
  · have hw : walWrite { w with pos := 0 } ps =
        walWriteFrames (walWriteHeader { w with pos := 0 }) ps := by
      unfold walWrite
      rfl
    rw [hw]
    have hh : (walWriteHeader { w with pos := 0 }).fileOff = 32 := rfl
    have hl : 32 ≤ (walWriteHeader { w with pos := 0 }).walFile.length := by
      show 32 ≤ (writeAt w.walFile 0 (walHeaderBytes _ _ _ _)).length
      exact writeAt_zero_length _ _ (walHeaderBytes_length _ _ _ _)
    obtain ⟨h1, h2, h3, h4, h5⟩ := walWriteFrames_keep ps _ (by rw [hh]) hl
    refine ⟨by rw [h1]; rfl, by rw [h2]; rfl, by rw [h3]; rfl, by rw [h4]; rfl, ?_⟩
    rw [h5]
    show extract (writeAt w.walFile 0 (walHeaderBytes _ _ _ _)) 0 32 = _
    exact extract_writeAt_zero _ _ (walHeaderBytes_length _ _ _ _)

def c10w : WAL :=
  { dbFile := c8f, checkpointNumber := 3, salt1 := 0, salt2 := 0, pos := 7,
    totalPages := 1, pageCache := [], walFile := List.replicate 40 5,
    fileOff := 40, rand := [11, 22, 33] }

theorem C10_empty_checkpoint_witness :
    c10w.pageCache = [] ∧
    walCheckpoint c10w = Except.ok { c10w with pos := 0 } ∧
    (walWrite { c10w with pos := 0 } [⟨1, List.replicate 8 1⟩]).checkpointNumber = 4 :=
  ⟨rfl, (C10_empty_checkpoint c10w [⟨1, List.replicate 8 1⟩] rfl).1,
   (C10_empty_checkpoint c10w [⟨1, List.replicate 8 1⟩] rfl).2.1⟩

/-! ## Claim C3: checkpoint liveness -/

def c3data : List Nat := 1 :: List.replicate 1023 0

def c3db : DbFile :=
  { header := { pageSize := 1024, fileChangeCounter := 0, sizeInPages := 1 },
    pageSize := 1024, totalPages := 1, diskHeader := none, pages := [],
    syncCount := 0 }

def c3w : WAL :=
  { dbFile := c3db, checkpointNumber := 1, salt1 := 0, salt2 := 0, pos := 1104,
    totalPages := 1, pageCache := [(1, c3data)], walFile := [], fileOff := 0,
    rand := [] }

set_option maxRecDepth 8000 in
/-- C3 is false as stated: page 1 is buffered with a nonzero byte in its
first 100 bytes (the database-header region); `Checkpoint` succeeds, but
`DbFile.Read(1)` does not return the buffered bytes, because
`DbFile.Write` skips the first 100 bytes of page 1 and `DbFile.Read`
zero-fills them. -/
theorem C3_counterexample :
    (walCheckpoint c3w).isOk = true ∧
    lookupAssoc c3w.pageCache 1 = some c3data ∧
    dbRead (getOk c3w (walCheckpoint c3w)).dbFile 1 ≠ some c3data := by
  refine ⟨by decide, by decide, by decide⟩

theorem lookupAssoc_mem {α : Type} (l : List (Nat × α)) : ∀ (n : Nat) (v : α),
    lookupAssoc l n = some v → (n, v) ∈ l := by
  induction l with
  | nil => intro n v h; cases h
  | cons kv rest ih =>
    intro n v h
    obtain ⟨a, b⟩ := kv
    unfold lookupAssoc at h
    by_cases hk : a = n
    · rw [if_pos hk] at h
      cases h
      subst hk
      exact List.mem_cons_self _ _
    · rw [if_neg hk] at h
      exact List.mem_cons_of_mem _ (ih n v h)

theorem dbWriteLoop_lookup_notin (ps : List Page) : ∀ (f f1 : DbFile) (n : Nat),
    dbWriteLoop f ps = Except.ok f1 → n ∉ ps.map Page.pageNumber →
    lookupAssoc f1.pages n = lookupAssoc f.pages n := by
  induction ps with
  | nil => intro f f1 n h _; cases h; rfl
  | cons p rest ih =>
    intro f f1 n h hn
    unfold dbWriteLoop at h
    by_cases hg : p.pageNumber > f.totalPages + 1
    · rw [if_pos hg] at h; cases h
    · rw [if_neg hg] at h
      have hn1 : n ∉ rest.map Page.pageNumber := by
        intro hmem; exact hn (by simp [hmem])
      have hne : p.pageNumber ≠ n := by
        intro he; exact hn (by simp [he])
      rw [ih _ _ _ h hn1]
      exact lookupAssoc_setAssoc_ne _ _ _ _ hne

theorem dbWriteLoop_lookup_mem (ps : List Page) : ∀ (f f1 : DbFile),
    dbWriteLoop f ps = Except.ok f1 →
    (ps.map Page.pageNumber).Nodup →
    ∀ p ∈ ps, lookupAssoc f1.pages p.pageNumber =
      some (if p.pageNumber = 1 then p.data.drop 100 else p.data) := by
  induction ps with
  | nil => intro f f1 _ _ p hp; cases hp
  | cons q rest ih =>
    intro f f1 h hnd p hp
    unfold dbWriteLoop at h
    by_cases hg : q.pageNumber > f.totalPages + 1
    · rw [if_pos hg] at h; cases h
    · rw [if_neg hg] at h
      have hnd1 : (q.pageNumber :: rest.map Page.pageNumber).Nodup := by
        simpa using hnd
      rcases List.mem_cons.mp hp with he | hmem
      · subst he
        have hq : p.pageNumber ∉ rest.map Page.pageNumber :=
          (List.nodup_cons.mp hnd1).1
        rw [dbWriteLoop_lookup_notin rest _ _ _ h hq]
        exact lookupAssoc_setAssoc_self _ _ _
      · exact ih _ _ h (by simpa using (List.nodup_cons.mp hnd1).2) p hmem

/-- C3 (amended): after a successful `Checkpoint`, reading any buffered
page number `n` through the DbFile returns the buffered bytes — except
for page 1, whose first 100 bytes (the database-header region) read back
as zeros, since `DbFile.Write` writes only `data[100:]` of page 1.
Additionally the WAL append position is reset to 0 and the buffer is not
cleared.  `hnodup` states the map discipline of the Go buffer (one entry
per page number); `hlen`/`hps` record that buffered blocks are full
pages, the regime in which the DbFile page map models the flat file. -/
theorem C3_checkpoint_liveness (w w2 : WAL)
    (hnodup : (w.pageCache.map Prod.fst).Nodup)
    (hlen : ∀ kv ∈ w.pageCache, (kv.2 : List Nat).length = w.dbFile.pageSize)
    (hps : 100 ≤ w.dbFile.pageSize)
    (hok : walCheckpoint w = Except.ok w2) :
    w2.pos = 0 ∧ w2.pageCache = w.pageCache ∧
    ∀ n d, lookupAssoc w.pageCache n = some d →
      dbRead w2.dbFile n =
        some (if n = 1 then List.replicate 100 0 ++ d.drop 100 else d) := by
  unfold walCheckpoint at hok
  by_cases hemp : (w.pageCache.map fun kv => Page.mk kv.1 kv.2).isEmpty
  · rw [if_pos hemp] at hok
    cases hok
    refine ⟨rfl, rfl, ?_⟩
    intro n d hl
    have : w.pageCache = [] := by
      cases hc : w.pageCache with
      | nil => rfl
      | cons kv rest => rw [hc] at hemp; simp [List.isEmpty] at hemp
    rw [this] at hl
    cases hl
  · rw [if_neg hemp] at hok
    cases hw : dbWrite w.dbFile (w.pageCache.map fun kv => Page.mk kv.1 kv.2) with
    | error e => rw [hw] at hok; cases hok
    | ok db1 =>
      rw [hw] at hok
      cases hok
      refine ⟨rfl, rfl, ?_⟩
      intro n d hl
      unfold dbWrite at hw
      cases hloop : dbWriteLoop w.dbFile (w.pageCache.map fun kv => Page.mk kv.1 kv.2) with
      | error e => rw [hloop] at hw; cases hw
      | ok f1 =>
        rw [hloop] at hw
        cases hw
        have hmem : (Page.mk n d) ∈ (w.pageCache.map fun kv => Page.mk kv.1 kv.2) := by
          have := lookupAssoc_mem _ n d hl
          exact List.mem_map.mpr ⟨(n, d), this, rfl⟩
        have hnd2 : ((w.pageCache.map fun kv => Page.mk kv.1 kv.2).map
            Page.pageNumber).Nodup := by
          rw [List.map_map]
          exact hnodup
        have := dbWriteLoop_lookup_mem _ _ _ hloop hnd2 _ hmem
        show dbRead { updateFileHeader f1 with syncCount := f1.syncCount + 1 } n = _
        unfold dbRead
        show (match lookupAssoc f1.pages n with
              | some bs => some (if n = 1 then List.replicate 100 0 ++ bs else bs)
              | none => none) = _
        rw [this]
        by_cases h1 : n = 1
        · simp [h1]
        · simp [h1]

def c3wd1 : List Nat := List.replicate 104 3

def c3wd2 : List Nat := List.replicate 104 4

def c3wit : WAL :=
  { dbFile := { header := { pageSize := 104, fileChangeCounter := 0, sizeInPages := 1 },
                pageSize := 104, totalPages := 1, diskHeader := none, pages := [],
                syncCount := 0 },
    checkpointNumber := 1, salt1 := 0, salt2 := 0, pos := 288, totalPages := 2,
    pageCache := [(1, c3wd1), (2, c3wd2)], walFile := [], fileOff := 0, rand := [] }

def c3wit2 : WAL := getOk c3wit (walCheckpoint c3wit)

set_option maxRecDepth 4000 in
theorem C3_checkpoint_liveness_witness :
    (c3wit.pageCache.map Prod.fst).Nodup ∧
    walCheckpoint c3wit = Except.ok c3wit2 ∧
    c3wit2.pos = 0 ∧ c3wit2.pageCache = c3wit.pageCache ∧
    dbRead c3wit2.dbFile 2 = some c3wd2 := by
  have hnodup : (c3wit.pageCache.map Prod.fst).Nodup := by decide
  have hlen : ∀ kv ∈ c3wit.pageCache, (kv.2 : List Nat).length = c3wit.dbFile.pageSize := by
    decide
  have hok : walCheckpoint c3wit = Except.ok c3wit2 := by decide
  obtain ⟨h1, h2, h3⟩ := C3_checkpoint_liveness c3wit c3wit2 hnodup hlen (by decide) hok
  refine ⟨hnodup, hok, h1, h2, ?_⟩
  have := h3 2 c3wd2 (by decide)
  rw [this]
  decide

/-! ## MemPage lemmas -/

theorem fits_iff (p : MemPage) (n : Nat) :
    p.Fits n = true ↔
    (cellPointersStart p.header.type p.pageNumber : Int) +
      (p.header.numCells : Int) * 2 + 2 ≤ (p.header.cellsOffset : Int) - n := by
  unfold MemPage.Fits
  rw [decide_eq_true_iff]

theorem fits_nat (p : MemPage) (n : Nat) (h : p.Fits n = true) :
    cellPointersStart p.header.type p.pageNumber + 2 * p.header.numCells + 2 + n ≤
      p.header.cellsOffset := by
  rw [fits_iff] at h
  omega

theorem updateHeaderData_header (p : MemPage) :
    (MemPage.updateHeaderData p).header = p.header := rfl

theorem updateHeaderData_pageNumber (p : MemPage) :
    (MemPage.updateHeaderData p).pageNumber = p.pageNumber := rfl

theorem updateHeaderData_length (p : MemPage) :
    (MemPage.updateHeaderData p).data.length = p.data.length := by
  unfold MemPage.updateHeaderData
  by_cases ht : p.header.type = PageTypeInternal ∨ p.header.type = PageTypeInternalIndex
  · simp only [ht, if_true]
    unfold writeU32 writeU16
    simp [store_length]
  · simp only [ht, if_false]
    unfold writeU16
    simp [store_length]

theorem byteAt_updateHeaderData_ge (p : MemPage) (j : Nat)
    (hj : cellPointersStart p.header.type p.pageNumber ≤ j) :
    byteAt (MemPage.updateHeaderData p).data j = byteAt p.data j := by
  unfold cellPointersStart at hj
  unfold MemPage.updateHeaderData writeU32 writeU16
  by_cases ht : p.header.type = PageTypeInternal ∨ p.header.type = PageTypeInternalIndex
  · rw [if_pos ht] at hj
    simp only [ht, if_true]
    rw [byteAt_store_ge _ _ _ _ (by simp [be32_length, InteriorHeaderLen] at hj ⊢; omega),
        byteAt_store_ge _ _ _ _ (by simp [InteriorHeaderLen] at hj ⊢; omega),
        byteAt_store_ge _ _ _ _ (by simp [be16_length, InteriorHeaderLen] at hj ⊢; omega),
        byteAt_store_ge _ _ _ _ (by simp [be16_length, InteriorHeaderLen] at hj ⊢; omega),
        byteAt_store_ge _ _ _ _ (by simp [be16_length, InteriorHeaderLen] at hj ⊢; omega),
        byteAt_store_ge _ _ _ _ (by simp [InteriorHeaderLen] at hj ⊢; omega)]
  · rw [if_neg ht] at hj
    simp only [ht, if_false]
    rw [byteAt_store_ge _ _ _ _ (by simp [LeafHeaderLen] at hj ⊢; omega),
        byteAt_store_ge _ _ _ _ (by simp [be16_length, LeafHeaderLen] at hj ⊢; omega),
        byteAt_store_ge _ _ _ _ (by simp [be16_length, LeafHeaderLen] at hj ⊢; omega),
        byteAt_store_ge _ _ _ _ (by simp [be16_length, LeafHeaderLen] at hj ⊢; omega),
        byteAt_store_ge _ _ _ _ (by simp [LeafHeaderLen] at hj ⊢; omega)]

theorem extract_updateHeaderData_ge (p : MemPage) (off n : Nat)
    (hj : cellPointersStart p.header.type p.pageNumber ≤ off) :
    extract (MemPage.updateHeaderData p).data off n = extract p.data off n := by
  unfold cellPointersStart at hj
  unfold MemPage.updateHeaderData writeU32 writeU16
  by_cases ht : p.header.type = PageTypeInternal ∨ p.header.type = PageTypeInternalIndex
  · rw [if_pos ht] at hj
    simp only [ht, if_true]
    rw [extract_store_after _ _ _ _ _ (by simp [be32_length, InteriorHeaderLen] at hj ⊢; omega),
        extract_store_after _ _ _ _ _ (by simp [InteriorHeaderLen] at hj ⊢; omega),
        extract_store_after _ _ _ _ _ (by simp [be16_length, InteriorHeaderLen] at hj ⊢; omega),
        extract_store_after _ _ _ _ _ (by simp [be16_length, InteriorHeaderLen] at hj ⊢; omega),
        extract_store_after _ _ _ _ _ (by simp [be16_length, InteriorHeaderLen] at hj ⊢; omega),
        extract_store_after _ _ _ _ _ (by simp [InteriorHeaderLen] at hj ⊢; omega)]
  · rw [if_neg ht] at hj
    simp only [ht, if_false]
    rw [extract_store_after _ _ _ _ _ (by simp [LeafHeaderLen] at hj ⊢; omega),
        extract_store_after _ _ _ _ _ (by simp [be16_length, LeafHeaderLen] at hj ⊢; omega),
        extract_store_after _ _ _ _ _ (by simp [be16_length, LeafHeaderLen] at hj ⊢; omega),
        extract_store_after _ _ _ _ _ (by simp [be16_length, LeafHeaderLen] at hj ⊢; omega),
        extract_store_after _ _ _ _ _ (by simp [LeafHeaderLen] at hj ⊢; omega)]

theorem addCell_header (p : MemPage) (d : List Nat)
    (hco : p.header.cellsOffset < 65536)
    (hk : p.header.numCells + 1 < 65536)
    (hl : d.length ≤ p.header.cellsOffset) :
    (p.AddCell d).header.numCells = p.header.numCells + 1 ∧
    (p.AddCell d).header.cellsOffset = p.header.cellsOffset - d.length ∧
    (p.AddCell d).header.type = p.header.type ∧
    (p.AddCell d).pageNumber = p.pageNumber := by
  unfold MemPage.AddCell
  refine ⟨?_, ?_, rfl, rfl⟩
  · show (p.header.numCells + 1) % 65536 = p.header.numCells + 1
    omega
  · show (p.header.cellsOffset + 65536 - d.length % 65536) % 65536 =
      p.header.cellsOffset - d.length
    omega

theorem addCell_length (p : MemPage) (d : List Nat) :
    (p.AddCell d).data.length = p.data.length := by
  unfold MemPage.AddCell
  rw [updateHeaderData_length]
  show (store (writeU16 p.data _ _) _ d).length = _
  unfold writeU16
  simp [store_length]

theorem addCell_co2 (p : MemPage) (d : List Nat)
    (hco : p.header.cellsOffset < 65536)
    (hl : d.length ≤ p.header.cellsOffset) :
    (p.header.cellsOffset + 65536 - d.length % 65536) % 65536 =
      p.header.cellsOffset - d.length := by
  omega

theorem addCell_data (p : MemPage) (d : List Nat)
    (hco : p.header.cellsOffset < 65536)
    (hl : d.length ≤ p.header.cellsOffset) :
    (p.AddCell d).data =
      (MemPage.updateHeaderData
        { p with dirty := true,
                 data := store
                   (writeU16 p.data
                     (cellPointersStart p.header.type p.pageNumber +
                       2 * p.header.numCells)
                     (p.header.cellsOffset - d.length))
                   (p.header.cellsOffset - d.length) d,
                 header := { p.header with
                   cellsOffset := p.header.cellsOffset - d.length,
                   numCells := (p.header.numCells + 1) % 65536 } }).data := by
  unfold MemPage.AddCell
  simp only [addCell_co2 p d hco hl]

theorem addCell_pointer (p : MemPage) (d : List Nat)
    (hco : p.header.cellsOffset < 65536)
    (hinv2 : p.header.cellsOffset ≤ p.data.length)
    (hfits : p.Fits d.length = true) :
    readU16 (p.AddCell d).data
      (cellPointersStart p.header.type p.pageNumber + 2 * p.header.numCells) =
      p.header.cellsOffset - d.length := by
  have hfn := fits_nat p d.length hfits
  rw [addCell_data p d hco (by omega)]
  unfold readU16
  rw [byteAt_updateHeaderData_ge _ _ (by show cellPointersStart p.header.type p.pageNumber ≤ _; omega),
      byteAt_updateHeaderData_ge _ _ (by show cellPointersStart p.header.type p.pageNumber ≤ _; omega)]
  show 256 * byteAt (store (writeU16 p.data _ _) _ d) _ +
      byteAt (store (writeU16 p.data _ _) _ d) _ = _
  rw [byteAt_store_lt _ _ _ _ (by omega), byteAt_store_lt _ _ _ _ (by omega)]
  have := readU16_store_be16 p.data
    (cellPointersStart p.header.type p.pageNumber + 2 * p.header.numCells)
    (p.header.cellsOffset - d.length) (by omega) (by omega)
  unfold readU16 at this
  unfold writeU16
  exact this

theorem addCell_cell_bytes (p : MemPage) (d : List Nat)
    (hco : p.header.cellsOffset < 65536)
    (hinv2 : p.header.cellsOffset ≤ p.data.length)
    (hfits : p.Fits d.length = true) :
    extract (p.AddCell d).data (p.header.cellsOffset - d.length) d.length = d := by
  have hfn := fits_nat p d.length hfits
  rw [addCell_data p d hco (by omega)]
  rw [extract_updateHeaderData_ge _ _ _ (by show cellPointersStart p.header.type p.pageNumber ≤ _; omega)]
  show extract (store (writeU16 p.data _ _) _ d) _ _ = d
  apply extract_store_exact
  unfold writeU16
  rw [store_length]
  omega

theorem addCell_byteAt_pointers (p : MemPage) (d : List Nat)
    (hco : p.header.cellsOffset < 65536)
    (hinv2 : p.header.cellsOffset ≤ p.data.length)
    (hfits : p.Fits d.length = true) (j : Nat)
    (h1 : cellPointersStart p.header.type p.pageNumber ≤ j)
    (h2 : j < cellPointersStart p.header.type p.pageNumber + 2 * p.header.numCells) :
    byteAt (p.AddCell d).data j = byteAt p.data j := by
  have hfn := fits_nat p d.length hfits
  rw [addCell_data p d hco (by omega)]
  rw [byteAt_updateHeaderData_ge _ _ (by show cellPointersStart p.header.type p.pageNumber ≤ _; omega)]
  show byteAt (store (writeU16 p.data _ _) _ d) _ = _
  rw [byteAt_store_lt _ _ _ _ (by omega)]
  unfold writeU16
  rw [byteAt_store_lt _ _ _ _ (by omega)]

theorem addCell_extract_high (p : MemPage) (d : List Nat)
    (hco : p.header.cellsOffset < 65536)
    (hinv2 : p.header.cellsOffset ≤ p.data.length)
    (hfits : p.Fits d.length = true) (off n : Nat)
    (h : p.header.cellsOffset ≤ off) :
    extract (p.AddCell d).data off n = extract p.data off n := by
  have hfn := fits_nat p d.length hfits
  rw [addCell_data p d hco (by omega)]
  rw [extract_updateHeaderData_ge _ _ _ (by show cellPointersStart p.header.type p.pageNumber ≤ _; omega)]
  show extract (store (writeU16 p.data _ _) _ d) _ _ = _
  rw [extract_store_after _ _ _ _ _ (by omega)]
  unfold writeU16
  rw [extract_store_after _ _ _ _ _ (by rw [be16_length]; omega)]

theorem addCell_type (p : MemPage) (d : List Nat) :
    (p.AddCell d).header.type = p.header.type := rfl

theorem addCell_pageNumber (p : MemPage) (d : List Nat) :
    (p.AddCell d).pageNumber = p.pageNumber := rfl

/-- C6: for a page satisfying `header_len + 2*NumCells ≤ CellsOffset ≤
PageSize` (PageSize being the raw buffer length, below 2^16), `Fits`
decides exactly `cell_pointers_start + 2*(NumCells+1) ≤ CellsOffset −
recordLen`, and when it holds `AddCell` increments `NumCells`, lowers
`CellsOffset` by the record length, preserves the invariant, and places
the new cell bytes `[CellsOffset − len, CellsOffset)` entirely above the
end of the grown cell pointer array. -/
theorem C6_fits_invariant (p : MemPage) (d : List Nat)
    (hinv1 : cellPointersStart p.header.type p.pageNumber + 2 * p.header.numCells ≤
      p.header.cellsOffset)
    (hinv2 : p.header.cellsOffset ≤ p.data.length)
    (hL : p.data.length < 65536)
    (hfits : p.Fits d.length = true) :
    (∀ m : Nat, p.Fits m = true ↔
      (cellPointersStart p.header.type p.pageNumber : Int) +
        2 * ((p.header.numCells : Int) + 1) ≤ (p.header.cellsOffset : Int) - m) ∧
    (p.AddCell d).header.numCells = p.header.numCells + 1 ∧
    (p.AddCell d).header.cellsOffset = p.header.cellsOffset - d.length ∧
    cellPointersStart (p.AddCell d).header.type (p.AddCell d).pageNumber +
        2 * (p.AddCell d).header.numCells ≤ (p.AddCell d).header.cellsOffset ∧
    (p.AddCell d).header.cellsOffset ≤ (p.AddCell d).data.length ∧
    cellPointersStart p.header.type p.pageNumber + 2 * (p.header.numCells + 1) ≤
      p.header.cellsOffset - d.length := by
  have hfn := fits_nat p d.length hfits
  have hco : p.header.cellsOffset < 65536 := by omega
  have hk : p.header.numCells + 1 < 65536 := by omega
  have hl : d.length ≤ p.header.cellsOffset := by omega
  obtain ⟨h1, h2, h3, h4⟩ := addCell_header p d hco hk hl
  refine ⟨?_, h1, h2, ?_, ?_, by omega⟩
  · intro m
    rw [fits_iff]
    constructor <;> intro hm <;> omega
  · rw [h1, h2, h3, h4]
    omega
  · rw [h2, addCell_length]
    omega

def freshLeafPage (n L : Nat) : MemPage :=
  MemPage.updateHeaderData
    { header := NewPageHeader PageTypeLeaf L, pageNumber := n,
      data := List.replicate L 0, dirty := true }

theorem pagerAllocate_freshLeaf (p : Pager) :
    (pagerAllocate p PageTypeLeaf).1 = freshLeafPage (p.pageCount + 1) p.pageSize := rfl

theorem C6_fits_invariant_witness :
    (cellPointersStart (freshLeafPage 2 40).header.type (freshLeafPage 2 40).pageNumber +
        2 * (freshLeafPage 2 40).header.numCells ≤ (freshLeafPage 2 40).header.cellsOffset) ∧
    ((freshLeafPage 2 40).AddCell (List.replicate 8 1)).header.numCells = 1 ∧
    ((freshLeafPage 2 40).AddCell (List.replicate 8 1)).header.cellsOffset = 32 := by
  obtain ⟨h1, h2, h3, h4, h5, h6⟩ :=
    C6_fits_invariant (freshLeafPage 2 40) (List.replicate 8 1)
      (by decide) (by decide) (by decide) (by decide)
  exact ⟨by decide, by rw [h2]; decide, by rw [h3]; decide⟩

/-! ## Claim C5: cell round-trip on a fresh leaf page -/

def addCells (p : MemPage) (xs : List (List Nat)) : MemPage :=
  xs.foldl MemPage.AddCell p

def fitsAll : MemPage → List (List Nat) → Bool
  | _, [] => true
  | p, x :: xs => p.Fits x.length && fitsAll (p.AddCell x) xs

def sumLens (xs : List (List Nat)) : Nat := (xs.map List.length).sum

theorem sumLens_append (a b : List (List Nat)) :
    sumLens (a ++ b) = sumLens a + sumLens b := by
  simp [sumLens]

theorem getD_append_lt {α : Type} (l1 : List α) : ∀ (l2 : List α) (i : Nat) (d : α),
    i < l1.length → (l1 ++ l2).getD i d = l1.getD i d := by
  induction l1 with
  | nil => intro l2 i d h; simp at h
  | cons a l1 ih =>
    intro l2 i d h
    cases i with
    | zero => rfl
    | succ i => exact ih l2 i d (by simp at h; omega)

theorem getD_append_ge {α : Type} (l1 : List α) : ∀ (l2 : List α) (i : Nat) (d : α),
    l1.length ≤ i → (l1 ++ l2).getD i d = l2.getD (i - l1.length) d := by
  induction l1 with
  | nil => intro l2 i d _; simp
  | cons a l1 ih =>
    intro l2 i d h
    cases i with
    | zero => simp at h
    | succ i =>
      show (l1 ++ l2).getD i d = _
      rw [ih l2 i d (by simp at h; omega)]
      simp

theorem readU16_congr_two (bs1 bs2 : List Nat) (off : Nat)
    (h1 : byteAt bs1 off = byteAt bs2 off)
    (h2 : byteAt bs1 (off + 1) = byteAt bs2 (off + 1)) :
    readU16 bs1 off = readU16 bs2 off := by
  unfold readU16
  rw [h1, h2]

theorem sumLens_take_le (l : List (List Nat)) (m : Nat) :
    sumLens (l.take m) ≤ sumLens l := by
  conv_rhs => rw [← List.take_append_drop m l]
  rw [sumLens_append]
  omega

theorem addCells_spec (xs : List (List Nat)) :
    ∀ (p : MemPage) (done : List (List Nat)) (cps L : Nat),
    cellPointersStart p.header.type p.pageNumber = cps →
    p.data.length = L →
    L < 65536 →
    p.header.numCells = done.length →
    p.header.cellsOffset = L - sumLens done →
    sumLens done + cps + 2 * done.length ≤ L →
    fitsAll p xs = true →
    (∀ i, i < done.length →
       readU16 p.data (cps + 2 * i) = L - sumLens (done.take (i + 1)) ∧
       extract p.data (L - sumLens (done.take (i + 1))) (done.getD i []).length =
         done.getD i []) →
    ((∀ i, i < done.length + xs.length →
       readU16 (addCells p xs).data (cps + 2 * i) =
         L - sumLens ((done ++ xs).take (i + 1)) ∧
       extract (addCells p xs).data (L - sumLens ((done ++ xs).take (i + 1)))
           ((done ++ xs).getD i []).length = (done ++ xs).getD i []) ∧
     (addCells p xs).header.numCells = done.length + xs.length ∧
     (addCells p xs).header.cellsOffset = L - sumLens (done ++ xs) ∧
     (addCells p xs).header.type = p.header.type ∧
     (addCells p xs).pageNumber = p.pageNumber ∧
     (addCells p xs).data.length = L) := by
  induction xs with
  | nil =>
    intro p done cps L h1 h2 h3 h4 h5 h6 h7 h8
    refine ⟨?_, by simpa using h4, by simpa using h5, rfl, rfl, h2⟩
    intro i hi
    simp only [List.append_nil]
    simp only [List.length_nil, Nat.add_zero] at hi
    exact h8 i hi
  | cons x xs ih =>
    intro p done cps L h1 h2 h3 h4 h5 h6 h7 h8
    simp only [fitsAll, Bool.and_eq_true] at h7
    obtain ⟨hfx, hrest⟩ := h7
    have hfn0 := fits_nat p x.length hfx
    rw [h1, h4, h5] at hfn0
    have hco : p.header.cellsOffset < 65536 := by rw [h5]; omega
    have hk2 : p.header.numCells + 1 < 65536 := by rw [h4]; omega
    have hlx : x.length ≤ p.header.cellsOffset := by rw [h5]; omega
    have hinv2 : p.header.cellsOffset ≤ p.data.length := by rw [h5, h2]; omega
    obtain ⟨ha1, ha2, ha3, ha4⟩ := addCell_header p x hco hk2 hlx
    have g1 : cellPointersStart (p.AddCell x).header.type (p.AddCell x).pageNumber = cps := by
      rw [ha3, ha4, h1]
    have g2 : (p.AddCell x).data.length = L := by rw [addCell_length, h2]
    have g4 : (p.AddCell x).header.numCells = (done ++ [x]).length := by
      rw [ha1, h4]; simp
    have hx1 : sumLens [x] = x.length := by simp [sumLens]
    have g5 : (p.AddCell x).header.cellsOffset = L - sumLens (done ++ [x]) := by
      rw [ha2, h5, sumLens_append]
      omega
    have g6 : sumLens (done ++ [x]) + cps + 2 * (done ++ [x]).length ≤ L := by
      rw [sumLens_append]
      simp only [List.length_append, List.length_cons, List.length_nil]
      omega
    have g8 : ∀ i, i < (done ++ [x]).length →
        readU16 (p.AddCell x).data (cps + 2 * i) =
          L - sumLens ((done ++ [x]).take (i + 1)) ∧
        extract (p.AddCell x).data (L - sumLens ((done ++ [x]).take (i + 1)))
            ((done ++ [x]).getD i []).length = (done ++ [x]).getD i [] := by
      intro i hi
      simp only [List.length_append, List.length_cons, List.length_nil] at hi
      by_cases hik : i < done.length
      · have hold := h8 i hik
        have htake : (done ++ [x]).take (i + 1) = done.take (i + 1) :=
          List.take_append_of_le_length (by omega)
        have hgd : (done ++ [x]).getD i ([] : List Nat) = done.getD i [] :=
          getD_append_lt _ _ _ _ hik
        rw [htake, hgd]
        have hsle : sumLens (done.take (i + 1)) ≤ sumLens done := sumLens_take_le _ _
        constructor
        · have e := readU16_congr_two (p.AddCell x).data p.data (cps + 2 * i)
            (addCell_byteAt_pointers p x hco hinv2 hfx _ (by rw [h1]; omega)
              (by rw [h1, h4]; omega))
            (addCell_byteAt_pointers p x hco hinv2 hfx _ (by rw [h1]; omega)
              (by rw [h1, h4]; omega))
          rw [e]
          exact hold.1
        · rw [addCell_extract_high p x hco hinv2 hfx _ _ (by rw [h5]; omega)]
          exact hold.2
      · have hieq : i = done.length := by omega
        subst hieq
        have htake : (done ++ [x]).take (done.length + 1) = done ++ [x] := by
          apply List.take_of_length_le
          simp
        have hgd : (done ++ [x]).getD done.length ([] : List Nat) = x := by
          rw [getD_append_ge _ _ _ _ (Nat.le_refl _)]
          simp
        rw [htake, hgd, sumLens_append]
        constructor
        · have e := addCell_pointer p x hco hinv2 hfx
          rw [h1, h4] at e
          rw [e, h5]
          omega
        · have e := addCell_cell_bytes p x hco hinv2 hfx
          rw [h5] at e
          have hrw : L - (sumLens done + sumLens [x]) = L - sumLens done - x.length := by
            omega
          rw [hrw]
          exact e
    obtain ⟨m1, m2, m3, m4, m5, m6⟩ :=
      ih (p.AddCell x) (done ++ [x]) cps L g1 g2 h3 g4 g5 g6 hrest g8
    have happ : (done ++ [x]) ++ xs = done ++ x :: xs := by simp
    have hfold : addCells p (x :: xs) = addCells (p.AddCell x) xs := rfl
    refine ⟨?_, ?_, ?_, ?_, ?_, by rw [hfold]; exact m6⟩
    · intro i hi
      rw [hfold]
      have hm := m1 i (by simp only [List.length_append, List.length_cons,
        List.length_nil] at hi ⊢; omega)
      rw [happ] at hm
      exact hm
    · rw [hfold, m2]
      simp only [List.length_append, List.length_cons, List.length_nil]
      omega
    · rw [hfold, m3, happ]
    · rw [hfold, m4, ha3]
    · rw [hfold, m5, ha4]

/-- C5: on a fresh leaf page (as produced by `Pager.Allocate`), adding a
sequence of cells `x_0 .. x_{k-1}`, each added only when `Fits` holds,
leaves `NumCells = k`, and for every `i < k` the cell pointer at index
`i` (the value `cellDataOffset` reads, which is where `ReadRecord(i)`
starts parsing) equals the offset `L - (|x_0| + ... + |x_i|)` at which
`x_i` was copied, and the bytes at that offset are exactly `x_i`. -/
theorem C5_cell_roundtrip (n L : Nat) (xs : List (List Nat))
    (hho : headerOffset n + 8 ≤ L) (hL : L < 65536)
    (hfits : fitsAll (freshLeafPage n L) xs = true) :
    (addCells (freshLeafPage n L) xs).CellCount = xs.length ∧
    ∀ i, i < xs.length →
      MemPage.cellDataOffset (addCells (freshLeafPage n L) xs) i =
        L - sumLens (xs.take (i + 1)) ∧
      extract (addCells (freshLeafPage n L) xs).data (L - sumLens (xs.take (i + 1)))
          (xs.getD i []).length = xs.getD i [] := by
  have h1 : cellPointersStart (freshLeafPage n L).header.type
      (freshLeafPage n L).pageNumber = headerOffset n + 8 := by
    show cellPointersStart PageTypeLeaf n = headerOffset n + 8
    simp [cellPointersStart, PageTypeLeaf, PageTypeInternal, PageTypeInternalIndex,
      LeafHeaderLen]
  have h2 : (freshLeafPage n L).data.length = L := by
    show (MemPage.updateHeaderData _).data.length = L
    rw [updateHeaderData_length]
    simp
  have h5 : (freshLeafPage n L).header.cellsOffset = L - sumLens [] := by
    show L % 65536 = L - sumLens []
    simp [sumLens]
    omega
  obtain ⟨m1, m2, m3, m4, m5, m6⟩ :=
    addCells_spec xs (freshLeafPage n L) [] (headerOffset n + 8) L h1 h2 hL rfl h5
      (by simp [sumLens]; omega) hfits (by intro i hi; simp at hi)
  have hcps : cellPointersStart (addCells (freshLeafPage n L) xs).header.type
      (addCells (freshLeafPage n L) xs).pageNumber = headerOffset n + 8 := by
    rw [m4, m5]
    exact h1
  constructor
  · show (addCells (freshLeafPage n L) xs).header.numCells = xs.length
    rw [m2]
    simp
  · intro i hi
    have hm := m1 i (by simpa using hi)
    simp only [List.nil_append] at hm
    constructor
    · show readU16 (addCells (freshLeafPage n L) xs).data _ = _
      rw [hcps]
      exact hm.1
    · exact hm.2

theorem C5_cell_roundtrip_witness :
    fitsAll (freshLeafPage 2 40) [List.replicate 8 1, List.replicate 6 2] = true ∧
    (addCells (freshLeafPage 2 40) [List.replicate 8 1, List.replicate 6 2]).CellCount = 2 ∧
    MemPage.cellDataOffset
      (addCells (freshLeafPage 2 40) [List.replicate 8 1, List.replicate 6 2]) 1 = 26 := by
  obtain ⟨hc, hidx⟩ := C5_cell_roundtrip 2 40 [List.replicate 8 1, List.replicate 6 2]
    (by decide) (by decide) (by decide)
  refine ⟨by decide, by rw [hc]; decide, ?_⟩
  have h := (hidx 1 (by decide)).1
  rw [h]
  decide

/-! ## Claim C1: leaf-root split -/

theorem addCell_rightPage (p : MemPage) (d : List Nat) :
    (p.AddCell d).header.rightPage = p.header.rightPage := rfl

theorem setHeader_header (p : MemPage) (h : PageHeader) :
    (p.SetHeader h).header = h := rfl

theorem setHeader_pageNumber (p : MemPage) (h : PageHeader) :
    (p.SetHeader h).pageNumber = p.pageNumber := rfl

theorem setHeader_length (p : MemPage) (h : PageHeader) :
    (p.SetHeader h).data.length = p.data.length := updateHeaderData_length _

theorem interiorNode_toBytes_length (nd : InteriorNode) : nd.toBytes.length = 8 := rfl

theorem record_toBytes_length (r : Record) :
    r.toBytes.length = 5 + r.payload.length := by
  simp [Record.toBytes, be32]
  omega

theorem toBytes_cons (r : Record) (rest : List Nat) :
    r.toBytes ++ rest =
      (r.rowID / 16777216 % 256) :: (r.rowID / 65536 % 256) ::
      (r.rowID / 256 % 256) :: (r.rowID % 256) :: (r.payload.length % 256) ::
      (r.payload ++ rest) := by
  simp [Record.toBytes, be32]

theorem parseRecord_toBytes (r : Record) (rest : List Nat)
    (hrow : r.rowID < 4294967296) (hpay : r.payload.length < 256) :
    parseRecord (r.toBytes ++ rest) = some r := by
  have hlen : (r.toBytes ++ rest).length = 5 + r.payload.length + rest.length := by
    rw [List.length_append, record_toBytes_length]
  have hb4 : byteAt (r.toBytes ++ rest) 4 = r.payload.length := by
    rw [toBytes_cons]
    show r.payload.length % 256 = r.payload.length
    omega
  have hu32 : readU32 (r.toBytes ++ rest) 0 = r.rowID := by
    rw [toBytes_cons]
    show 16777216 * (r.rowID / 16777216 % 256) + 65536 * (r.rowID / 65536 % 256) +
      256 * (r.rowID / 256 % 256) + r.rowID % 256 = r.rowID
    omega
  have hext : extract (r.toBytes ++ rest) 5 r.payload.length = r.payload := by
    rw [toBytes_cons]
    show (r.payload ++ rest).take r.payload.length = r.payload
    rw [List.take_append_of_le_length (Nat.le_refl _), List.take_length]
  unfold parseRecord
  rw [if_pos (by rw [hlen]; omega)]
  simp only [hb4]
  rw [if_pos (by rw [hlen]; omega), hu32, hext]

theorem parseInteriorNode_toBytes (nd : InteriorNode) (rest : List Nat)
    (h1 : nd.leftChild < 4294967296) (h2 : nd.key < 4294967296) :
    parseInteriorNode (nd.toBytes ++ rest) = some nd := by
  have hcons : nd.toBytes ++ rest =
      (nd.leftChild / 16777216 % 256) :: (nd.leftChild / 65536 % 256) ::
      (nd.leftChild / 256 % 256) :: (nd.leftChild % 256) ::
      (nd.key / 16777216 % 256) :: (nd.key / 65536 % 256) ::
      (nd.key / 256 % 256) :: (nd.key % 256) :: rest := by
    simp [InteriorNode.toBytes, be32]
  have hlen : 8 ≤ (nd.toBytes ++ rest).length := by
    rw [List.length_append, interiorNode_toBytes_length]
    omega
  have hu1 : readU32 (nd.toBytes ++ rest) 0 = nd.leftChild := by
    rw [hcons]
    show 16777216 * (nd.leftChild / 16777216 % 256) + 65536 * (nd.leftChild / 65536 % 256) +
      256 * (nd.leftChild / 256 % 256) + nd.leftChild % 256 = nd.leftChild
    omega
  have hu2 : readU32 (nd.toBytes ++ rest) 4 = nd.key := by
    rw [hcons]
    show 16777216 * (nd.key / 16777216 % 256) + 65536 * (nd.key / 65536 % 256) +
      256 * (nd.key / 256 % 256) + nd.key % 256 = nd.key
    omega
  unfold parseInteriorNode
  rw [if_pos hlen, hu1, hu2]

theorem parseRecord_rowID (bs : List Nat) (r : Record)
    (h : parseRecord bs = some r) : r.rowID = readU32 bs 0 := by
  unfold parseRecord at h
  by_cases h5 : 5 ≤ bs.length
  · rw [if_pos h5] at h
    by_cases h6 : 5 + byteAt bs 4 ≤ bs.length
    · simp only [if_pos h6] at h
      cases h
      rfl
    · simp only [if_neg h6] at h
      cases h
  · rw [if_neg h5] at h
    cases h

theorem readRecord_congr (p q : MemPage)
    (hdata : q.data = p.data) (hhead : q.header = p.header)
    (hpn : headerOffset q.pageNumber = headerOffset p.pageNumber) (i : Nat) :
    q.ReadRecord i = p.ReadRecord i := by
  unfold MemPage.ReadRecord MemPage.cellDataOffset cellPointersStart
  rw [hdata, hhead, hpn]

theorem recordsOf_congr (p q : MemPage)
    (hdata : q.data = p.data) (hhead : q.header = p.header)
    (hpn : headerOffset q.pageNumber = headerOffset p.pageNumber) :
    recordsOf q = recordsOf p := by
  unfold recordsOf MemPage.CellCount
  rw [hhead]
  exact List.map_congr_left (fun i _ => readRecord_congr p q hdata hhead hpn i)

theorem foldl_max_lt (l : List (Option Record)) : ∀ (m : Nat), m < 4294967296 →
    (∀ o ∈ l, ∀ r : Record, o = some r → r.rowID < 4294967296) →
    l.foldl (fun m o => match o with
      | some record => if record.rowID > m then record.rowID else m
      | none => m) m < 4294967296 := by
  induction l with
  | nil => intro m hm _; exact hm
  | cons o l ih =>
    intro m hm hl
    cases o with
    | none => exact ih m hm (fun o ho => hl o (by simp [ho]))
    | some record =>
      have hr : record.rowID < 4294967296 := hl (some record) (by simp) record rfl
      show l.foldl _ (if record.rowID > m then record.rowID else m) < 4294967296
      by_cases hgt : record.rowID > m
      · rw [if_pos hgt]
        exact ih _ hr (fun o ho => hl o (by simp [ho]))
      · rw [if_neg hgt]
        exact ih _ hm (fun o ho => hl o (by simp [ho]))

theorem readRecord_rowID_lt (p : MemPage) (hb : ∀ b ∈ p.data, b < 256)
    (i : Nat) (r : Record) (h : p.ReadRecord i = some r) :
    r.rowID < 4294967296 := by
  unfold MemPage.ReadRecord at h
  rw [parseRecord_rowID _ _ h]
  exact readU32_lt _ _ (fun b hb2 => hb b (List.drop_subset _ _ hb2))

theorem maxRowIDVal_lt (p : MemPage) (hb : ∀ b ∈ p.data, b < 256) :
    maxRowIDVal p < 4294967296 := by
  unfold maxRowIDVal
  apply foldl_max_lt _ _ (by omega)
  intro o ho r hr
  subst hr
  unfold recordsOf at ho
  obtain ⟨i, _, hoi⟩ := List.mem_map.mp ho
  exact readRecord_rowID_lt p hb i r hoi

theorem maxRowID_ok (p : MemPage)
    (hwf : ∀ i, i < p.CellCount → (p.ReadRecord i).isSome) :
    maxRowID p = Except.ok (maxRowIDVal p) := by
  unfold maxRowID maxRowIDVal recordsOf
  have hgen : ∀ (l : List Nat), (∀ i ∈ l, (p.ReadRecord i).isSome) → ∀ (m : Nat),
      l.foldlM (fun m i =>
        match p.ReadRecord i with
        | some record => Except.ok (if record.rowID > m then record.rowID else m)
        | none => Except.error "bad record") m =
      Except.ok ((l.map p.ReadRecord).foldl (fun m o =>
        match o with
        | some record => if record.rowID > m then record.rowID else m
        | none => m) m) := by
    intro l
    induction l with
    | nil => intro _ m; rfl
    | cons i l ih =>
      intro hl m
      cases hsome : p.ReadRecord i with
      | none =>
        have := hl i (by simp)
        rw [hsome] at this
        simp at this
      | some record =>
        show Except.bind _ _ = _
        simp only [hsome]
        show (l.foldlM _ (if record.rowID > m then record.rowID else m)) = _
        rw [ih (fun j hj => hl j (by simp [hj]))]
        simp [hsome]
  exact hgen _ (fun i hi => hwf i (by simpa using hi)) 0

theorem freshLeafPage_header (n L : Nat) :
    (freshLeafPage n L).header = NewPageHeader PageTypeLeaf L := rfl

theorem freshLeafPage_pageNumber (n L : Nat) : (freshLeafPage n L).pageNumber = n := rfl

theorem freshLeafPage_length (n L : Nat) : (freshLeafPage n L).data.length = L := by
  show (MemPage.updateHeaderData _).data.length = L
  rw [updateHeaderData_length]
  simp

theorem cellPointersStart_leaf (n : Nat) (hn : n ≠ 1) :
    cellPointersStart PageTypeLeaf n = 8 := by
  simp [cellPointersStart, headerOffset, hn, PageTypeLeaf, PageTypeInternal,
    PageTypeInternalIndex, LeafHeaderLen]

theorem cellPointersStart_internal (n : Nat) (hn : n ≠ 1) :
    cellPointersStart PageTypeInternal n = 12 := by
  simp [cellPointersStart, headerOffset, hn, PageTypeInternal, InteriorHeaderLen]

/-- A fresh leaf page that receives one record cell holds exactly that
record. -/
theorem fresh_addCell_records (n L : Nat) (r : Record)
    (hn : n ≠ 1) (hL : L < 65536)
    (hfit : r.toBytes.length + 10 ≤ L)
    (hrow : r.rowID < 4294967296) (hpay : r.payload.length < 256) :
    recordsOf ((freshLeafPage n L).AddCell r.toBytes) = [some r] := by
  have hmod : (freshLeafPage n L).header.cellsOffset = L := by
    show L % 65536 = L
    omega
  have hco : (freshLeafPage n L).header.cellsOffset < 65536 := by rw [hmod]; omega
  have hrb := record_toBytes_length r
  have hinv2 : (freshLeafPage n L).header.cellsOffset ≤ (freshLeafPage n L).data.length := by
    rw [hmod, freshLeafPage_length]
  have hcps : cellPointersStart (freshLeafPage n L).header.type
      (freshLeafPage n L).pageNumber = 8 := by
    show cellPointersStart PageTypeLeaf n = 8
    exact cellPointersStart_leaf n hn
  have hfits : (freshLeafPage n L).Fits r.toBytes.length = true := by
    rw [fits_iff, hcps, hmod]
    show (8 : Int) + (0 : Nat) * 2 + 2 ≤ (L : Int) - r.toBytes.length
    omega
  obtain ⟨hk1, hk2, hk3, hk4⟩ := addCell_header (freshLeafPage n L) r.toBytes hco
    (by show 0 + 1 < 65536; omega) (by rw [hmod]; omega)
  have hcell1 : ((freshLeafPage n L).AddCell r.toBytes).CellCount = 1 := by
    show ((freshLeafPage n L).AddCell r.toBytes).header.numCells = 1
    rw [hk1]
    rfl
  have hptr := addCell_pointer (freshLeafPage n L) r.toBytes hco hinv2 hfits
  rw [hcps, hmod] at hptr
  have hbytes := addCell_cell_bytes (freshLeafPage n L) r.toBytes hco hinv2 hfits
  rw [hmod] at hbytes
  have hlen : ((freshLeafPage n L).AddCell r.toBytes).data.length = L := by
    rw [addCell_length, freshLeafPage_length]
  have hread : ((freshLeafPage n L).AddCell r.toBytes).ReadRecord 0 = some r := by
    unfold MemPage.ReadRecord MemPage.cellDataOffset
    have hcps2 : cellPointersStart ((freshLeafPage n L).AddCell r.toBytes).header.type
        ((freshLeafPage n L).AddCell r.toBytes).pageNumber = 8 := by
      rw [addCell_type, addCell_pageNumber]
      exact hcps
    rw [hcps2]
    show parseRecord (((freshLeafPage n L).AddCell r.toBytes).data.drop
      (readU16 ((freshLeafPage n L).AddCell r.toBytes).data (8 + 2 * 0))) = some r
    have h80 : (8 : Nat) + 2 * 0 = 8 + 2 * (freshLeafPage n L).header.numCells := rfl
    rw [h80, hptr]
    rw [drop_eq_extract _ _ r.toBytes.length (by rw [hlen]; omega), hbytes]
    have := parseRecord_toBytes r [] hrow hpay
    rwa [List.append_nil] at this
  unfold recordsOf
  rw [hcell1]
  show [((freshLeafPage n L).AddCell r.toBytes).ReadRecord 0] = [some r]
  rw [hread]

/-- The interior page produced by `splitPage` from a non-page-1 root:
one interior cell that round-trips, and the right pointer as set. -/
theorem setHeader_addCell_interior (root : MemPage) (rightNum : Nat) (nd : InteriorNode)
    (hrp : root.pageNumber ≠ 1)
    (hL1 : 22 ≤ root.data.length) (hL2 : root.data.length < 65536)
    (hlc : nd.leftChild < 4294967296) (hkey : nd.key < 4294967296) :
    ((root.SetHeader { NewPageHeader PageTypeInternal root.data.length with
        rightPage := rightNum }).AddCell nd.toBytes).header.type = PageTypeInternal ∧
    ((root.SetHeader { NewPageHeader PageTypeInternal root.data.length with
        rightPage := rightNum }).AddCell nd.toBytes).CellCount = 1 ∧
    ((root.SetHeader { NewPageHeader PageTypeInternal root.data.length with
        rightPage := rightNum }).AddCell nd.toBytes).header.rightPage = rightNum ∧
    ((root.SetHeader { NewPageHeader PageTypeInternal root.data.length with
        rightPage := rightNum }).AddCell nd.toBytes).ReadInteriorNode 0 = some nd := by
  set q0 := root.SetHeader { NewPageHeader PageTypeInternal root.data.length with
    rightPage := rightNum } with hq0
  have hmod : q0.header.cellsOffset = root.data.length := by
    show root.data.length % 65536 = root.data.length
    omega
  have hco : q0.header.cellsOffset < 65536 := by rw [hmod]; omega
  have hq0len : q0.data.length = root.data.length := setHeader_length _ _
  have hinv2 : q0.header.cellsOffset ≤ q0.data.length := by rw [hmod, hq0len]
  have hcps : cellPointersStart q0.header.type q0.pageNumber = 12 := by
    show cellPointersStart PageTypeInternal root.pageNumber = 12
    exact cellPointersStart_internal _ hrp
  have hfits : q0.Fits nd.toBytes.length = true := by
    rw [fits_iff, hcps, hmod, interiorNode_toBytes_length]
    show (12 : Int) + (0 : Nat) * 2 + 2 ≤ (root.data.length : Int) - (8 : Nat)
    omega
  obtain ⟨hk1, hk2, hk3, hk4⟩ := addCell_header q0 nd.toBytes hco
    (by show 0 + 1 < 65536; omega)
    (by rw [hmod, interiorNode_toBytes_length]; omega)
  have hptr := addCell_pointer q0 nd.toBytes hco hinv2 hfits
  rw [hcps, hmod, interiorNode_toBytes_length] at hptr
  have hbytes := addCell_cell_bytes q0 nd.toBytes hco hinv2 hfits
  rw [hmod, interiorNode_toBytes_length] at hbytes
  have hlen : (q0.AddCell nd.toBytes).data.length = root.data.length := by
    rw [addCell_length, hq0len]
  refine ⟨rfl, ?_, rfl, ?_⟩
  · show (q0.AddCell nd.toBytes).header.numCells = 1
    rw [hk1]
    rfl
  · unfold MemPage.ReadInteriorNode MemPage.cellDataOffset
    have hcps2 : cellPointersStart (q0.AddCell nd.toBytes).header.type
        (q0.AddCell nd.toBytes).pageNumber = 12 := by
      rw [addCell_type, addCell_pageNumber]
      exact hcps
    rw [hcps2]
    show parseInteriorNode ((q0.AddCell nd.toBytes).data.drop
      (readU16 (q0.AddCell nd.toBytes).data (12 + 2 * 0))) = some nd
    have h120 : (12 : Nat) + 2 * 0 = 12 + 2 * q0.header.numCells := rfl
    rw [h120, hptr]
    rw [drop_eq_extract _ _ 8 (by rw [hlen]; omega)]
    rw [show (8 : Nat) = nd.toBytes.length from (interiorNode_toBytes_length nd).symm] at hbytes ⊢
    rw [hbytes]
    have := parseInteriorNode_toBytes nd [] hlc hkey
    rwa [List.append_nil] at this

theorem pagerRead_cached (P : Pager) (rp : Nat) (root : MemPage)
    (h1 : 1 ≤ rp) (h : lookupAssoc P.pageCache rp = some root) :
    pagerRead P rp = Except.ok (root, P) := by
  unfold pagerRead
  rw [if_neg (by omega), h]

theorem splitPage_ok (pager : Pager) (p : MemPage) (mv : Nat)
    (hmax : maxRowID p = Except.ok mv) :
    splitPage pager p = Except.ok
      ((MemPage.SetHeader p { NewPageHeader PageTypeInternal p.data.length with
          rightPage := pager.pageCount + 2 }).AddCell
         (InteriorNode.toBytes
           { leftChild := (pager.pageCount + 1) % 4294967296, key := mv }),
       MemPage.CopyTo p (freshLeafPage (pager.pageCount + 1) pager.pageSize),
       freshLeafPage (pager.pageCount + 2) pager.pageSize,
       { pager with pageCount := pager.pageCount + 2,
                    pageCache := setAssoc
                      (setAssoc pager.pageCache (pager.pageCount + 1)
                        (freshLeafPage (pager.pageCount + 1) pager.pageSize))
                      (pager.pageCount + 2)
                      (freshLeafPage (pager.pageCount + 2) pager.pageSize) }) := by
  unfold splitPage
  rw [hmax]
  rfl

theorem btInsert_split (P : Pager) (rp : Nat) (r : Record) (root : MemPage)
    (parent left right : MemPage) (pg2 : Pager)
    (hread : pagerRead P rp = Except.ok (root, P))
    (htype : root.header.type = PageTypeLeaf)
    (hnofit : root.Fits r.toBytes.length = false)
    (hsplit : splitPage P root = Except.ok (parent, left, right, pg2)) :
    btInsert P rp r =
      Except.ok (pagerWrite pg2 [left, right.AddCell r.toBytes, parent]) := by
  unfold btInsert
  rw [hread]
  simp [htype, hnofit, hsplit]

theorem copyGo_eq (dst src : List Nat) (h : dst.length = src.length) :
    copyGo dst src = src := by
  unfold copyGo
  rw [h, Nat.min_self]
  show List.take src.length src ++ List.drop src.length dst = src
  rw [List.take_length, ← h, List.drop_length, List.append_nil]

theorem pagerWrite_three (pg : Pager) (a b c : MemPage) :
    (pagerWrite pg [a, b, c]).pageCache =
      setAssoc (setAssoc (setAssoc pg.pageCache a.Number a) b.Number b) c.Number c := rfl

set_option maxHeartbeats 1000000 in
/-- C1 (amended): for a leaf root that is NOT page 1 (see the
counterexample for page-1 roots), whose records all parse and fit in one
page, inserting a record the root cannot fit splits the root: the left
page carries exactly the original records, the right page exactly the
new record, and the root becomes an interior-table page with exactly one
cell `{LeftChild := left, Key := max RowID of the original leaf}` and
its right pointer at the right page's number. -/
theorem C1_split_preserves (P : Pager) (rp : Nat) (root : MemPage) (r : Record)
    (hlookup : lookupAssoc P.pageCache rp = some root)
    (hrpn : root.pageNumber = rp)
    (hrp2 : 2 ≤ rp) (hrpc : rp ≤ P.pageCount)
    (htype : root.header.type = PageTypeLeaf)
    (hdlen : root.data.length = P.pageSize)
    (hL1 : 22 ≤ P.pageSize) (hL2 : P.pageSize < 65536)
    (hpc : P.pageCount + 2 < 4294967296)
    (hbytes : ∀ b ∈ root.data, b < 256)
    (hwf : ∀ i, i < root.CellCount → (root.ReadRecord i).isSome)
    (hnofit : root.Fits r.toBytes.length = false)
    (hrfit : r.toBytes.length + 10 ≤ P.pageSize)
    (hrow : r.rowID < 4294967296) (hpay : r.payload.length < 256) :
    ∃ P2 left right newRoot,
      btInsert P rp r = Except.ok P2 ∧
      lookupAssoc P2.pageCache (P.pageCount + 1) = some left ∧
      lookupAssoc P2.pageCache (P.pageCount + 2) = some right ∧
      lookupAssoc P2.pageCache rp = some newRoot ∧
      recordsOf left = recordsOf root ∧
      recordsOf right = [some r] ∧
      recordsOf left ++ recordsOf right = recordsOf root ++ [some r] ∧
      newRoot.header.type = PageTypeInternal ∧
      newRoot.CellCount = 1 ∧
      newRoot.header.rightPage = P.pageCount + 2 ∧
      newRoot.ReadInteriorNode 0 =
        some { leftChild := P.pageCount + 1, key := maxRowIDVal root } := by
  have hread := pagerRead_cached P rp root (by omega) hlookup
  have hmax := maxRowID_ok root hwf
  have hsplit := splitPage_ok P root (maxRowIDVal root) hmax
  have hmain := btInsert_split P rp r root _ _ _ _ hread htype hnofit hsplit
  set fresh1 := freshLeafPage (P.pageCount + 1) P.pageSize with hf1
  set fresh2 := freshLeafPage (P.pageCount + 2) P.pageSize with hf2
  set leftv := MemPage.CopyTo root fresh1 with hlv
  set rightA := fresh2.AddCell r.toBytes with hrav
  set parentv := (MemPage.SetHeader root
    { NewPageHeader PageTypeInternal root.data.length with
      rightPage := P.pageCount + 2 }).AddCell
    (InteriorNode.toBytes
      { leftChild := (P.pageCount + 1) % 4294967296, key := maxRowIDVal root }) with hpv
  have hna : leftv.Number = P.pageCount + 1 := rfl
  have hnb : rightA.Number = P.pageCount + 2 := rfl
  have hnc : parentv.Number = rp := hrpn
  have h4 : recordsOf leftv = recordsOf root := by
    apply recordsOf_congr
    · show copyGo fresh1.data root.data = root.data
      apply copyGo_eq
      show (freshLeafPage (P.pageCount + 1) P.pageSize).data.length = root.data.length
      rw [freshLeafPage_length, hdlen]
    · rfl
    · show headerOffset (P.pageCount + 1) = headerOffset root.pageNumber
      rw [hrpn]
      unfold headerOffset
      rw [if_neg (by omega), if_neg (by omega)]
  have h5 : recordsOf rightA = [some r] :=
    fresh_addCell_records (P.pageCount + 2) P.pageSize r (by omega) hL2 hrfit hrow hpay
  have h6 : recordsOf leftv ++ recordsOf rightA = recordsOf root ++ [some r] := by
    rw [h4, h5]
  obtain ⟨hi1, hi2, hi3, hi4⟩ := setHeader_addCell_interior root (P.pageCount + 2)
    { leftChild := (P.pageCount + 1) % 4294967296, key := maxRowIDVal root }
    (by rw [hrpn]; omega) (by rw [hdlen]; exact hL1) (by rw [hdlen]; exact hL2)
    (Nat.mod_lt _ (by omega)) (maxRowIDVal_lt root hbytes)
  have hmodpc : (P.pageCount + 1) % 4294967296 = P.pageCount + 1 := by omega
  refine ⟨_, leftv, rightA, parentv,
    hmain, ?_, ?_, ?_, h4, h5, h6, hi1, hi2, hi3, ?_⟩
  · rw [pagerWrite_three, hna, hnb, hnc,
      lookupAssoc_setAssoc_ne _ _ _ _ (by omega),
      lookupAssoc_setAssoc_ne _ _ _ _ (by omega)]
    exact lookupAssoc_setAssoc_self _ _ _
  · rw [pagerWrite_three, hna, hnb, hnc,
      lookupAssoc_setAssoc_ne _ _ _ _ (by omega)]
    exact lookupAssoc_setAssoc_self _ _ _
  · rw [pagerWrite_three, hna, hnb, hnc]
    exact lookupAssoc_setAssoc_self _ _ _
  · rw [show ({ leftChild := P.pageCount + 1, key := maxRowIDVal root } : InteriorNode) =
      { leftChild := (P.pageCount + 1) % 4294967296, key := maxRowIDVal root } from by
        rw [hmodpc]]
    exact hi4

def c1root : MemPage :=
  (freshLeafPage 1 140).AddCell (Record.toBytes { rowID := 7, payload := List.replicate 9 1 })

def c1P : Pager :=
  { pageCount := 1, pageSize := 140, pageCache := [(1, c1root)], file := [] }

def c1rec : Record := { rowID := 9, payload := List.replicate 11 2 }

def c1P2 : Pager := getOk c1P (btInsert c1P 1 c1rec)

def c1left : MemPage := (lookupAssoc c1P2.pageCache 2).getD c1root

def c1rightPg : MemPage := (lookupAssoc c1P2.pageCache 3).getD c1root

set_option maxRecDepth 8000 in
/-- C1 is false as stated when the leaf root is page 1: its B-tree
header lives at offset 100, but `CopyTo` copies the raw bytes to a left
page whose number is not 1, so the left page's cell pointers are read
from offset 8 — zero bytes — and its "records" are parses of the page
start, not the original records.  Here the original single record
`{RowID 7}` is lost: the left page yields `{RowID 0, empty payload}`,
and the union read from `left` and `right` differs from the original set
plus the new record. -/
theorem C1_counterexample :
    c1root.header.type = PageTypeLeaf ∧
    c1root.pageNumber = 1 ∧
    c1root.Fits (Record.toBytes c1rec).length = false ∧
    (btInsert c1P 1 c1rec).isOk = true ∧
    recordsOf c1root = [some { rowID := 7, payload := List.replicate 9 1 }] ∧
    recordsOf c1left = [some { rowID := 0, payload := [] }] ∧
    recordsOf c1rightPg = [some c1rec] ∧
    ¬ ((recordsOf c1left ++ recordsOf c1rightPg : Multiset (Option Record)) =
       (recordsOf c1root ++ [some c1rec] : Multiset (Option Record))) := by
  refine ⟨by decide, by decide, by decide, by decide, by decide, by decide, by decide,
    by decide⟩

def c1wroot : MemPage :=
  (freshLeafPage 2 40).AddCell (Record.toBytes { rowID := 7, payload := [1, 2, 3] })

def c1wP : Pager :=
  { pageCount := 2, pageSize := 40, pageCache := [(2, c1wroot)], file := [] }

def c1wrec : Record := { rowID := 9, payload := List.replicate 16 2 }

set_option maxRecDepth 4000 in
theorem C1_split_preserves_witness :
    lookupAssoc c1wP.pageCache 2 = some c1wroot ∧
    c1wroot.Fits (Record.toBytes c1wrec).length = false ∧
    (∃ P2 left right newRoot,
      btInsert c1wP 2 c1wrec = Except.ok P2 ∧
      lookupAssoc P2.pageCache (c1wP.pageCount + 1) = some left ∧
      lookupAssoc P2.pageCache (c1wP.pageCount + 2) = some right ∧
      lookupAssoc P2.pageCache 2 = some newRoot ∧
      recordsOf left = recordsOf c1wroot ∧
      recordsOf right = [some c1wrec] ∧
      recordsOf left ++ recordsOf right = recordsOf c1wroot ++ [some c1wrec] ∧
      newRoot.header.type = PageTypeInternal ∧
      newRoot.CellCount = 1 ∧
      newRoot.header.rightPage = c1wP.pageCount + 2 ∧
      newRoot.ReadInteriorNode 0 =
        some { leftChild := c1wP.pageCount + 1, key := maxRowIDVal c1wroot }) :=
  ⟨by decide, by decide,
   C1_split_preserves c1wP 2 c1wroot c1wrec (by decide) (by decide) (by decide)
     (by decide) (by decide) (by decide) (by decide) (by decide) (by decide)
     (by decide) (by decide) (by decide) (by decide) (by decide) (by decide)⟩

end TinyDb
